import Mathlib

/-! Dallas 1-Wire thermometer driver: CRC engine, device registry, resolution manager.

A shallow embedding of `src/src/Dallas.cpp`. Bytes (`uint8_t`) are natural numbers
below 256; buffers (`DeviceAddress`, `ScratchPad`) are lists of bytes; the abstract
transport `OnewireInterface` is a record of state-passing functions over an
arbitrary bus state.
-/

set_option maxRecDepth 100000

/-- The abstract transport `OnewireInterface` (`src/src/OnewireInterface.h`), as
state-passing functions over a bus state `β`. Only the methods the driver calls
are listed. `read_bytes` and `search` fill a caller buffer, so they take the old
buffer and return the new one; `write` takes the byte and the `power` argument. -/
structure OnewireInterface (β : Type) where
  /-- Reset cycle: 1 when a device answers with a presence pulse, else 0. -/
  reset : β → Nat × β
  /-- ROM select of one device. -/
  select : List Nat → β → β
  /-- ROM skip: address every device. -/
  skip : β → β
  /-- Write a byte, optionally holding the bus powered afterwards. -/
  write : Nat → Nat → β → β
  /-- Read `count` bytes into the buffer. -/
  read_bytes : List Nat → Nat → β → List Nat × β
  /-- Read one bit. -/
  read_bit : β → Nat × β
  /-- Restart the search from the beginning. -/
  reset_search : β → β
  /-- Look for the next device: non-zero when an address was stored in the buffer. -/
  search : List Nat → β → Nat × List Nat × β

/-- The member variables of class `Dallas` (`src/include/Dallas.h`); `bus` is the
state of the transport behind the `_ow` pointer. -/
structure Dallas (β : Type) where
  /-- Count of devices on the bus (`uint8_t`). -/
  _devices : Nat
  /-- Parasite power on or off. -/
  _parasite : Bool
  /-- Bus-wide resolution (`uint8_t`). -/
  _bitResolution : Nat
  /-- Block until a requested conversion is ready. -/
  _waitForConversion : Bool
  /-- Poll the bus while waiting instead of sleeping. -/
  _checkForConversion : Bool
  /-- State of the transport. -/
  bus : β

namespace Dallas

/-! ## CRC8 engine -/

/-- The 256-entry lookup table `crc_table` of `Dallas.cpp`. -/
def crc_table : List Nat := [
    0,   94,  188, 226, 97,  63,  221, 131, 194, 156, 126, 32,  163, 253, 31,
    65,  157, 195, 33,  127, 252, 162, 64,  30,  95,  1,   227, 189, 62,  96,
    130, 220, 35,  125, 159, 193, 66,  28,  254, 160, 225, 191, 93,  3,   128,
    222, 60,  98,  190, 224, 2,   92,  223, 129, 99,  61,  124, 34,  192, 158,
    29,  67,  161, 255, 70,  24,  250, 164, 39,  121, 155, 197, 132, 218, 56,
    102, 229, 187, 89,  7,   219, 133, 103, 57,  186, 228, 6,   88,  25,  71,
    165, 251, 120, 38,  196, 154, 101, 59,  217, 135, 4,   90,  184, 230, 167,
    249, 27,  69,  198, 152, 122, 36,  248, 166, 68,  26,  153, 199, 37,  123,
    58,  100, 134, 216, 91,  5,   231, 185, 140, 210, 48,  110, 237, 179, 81,
    15,  78,  16,  242, 172, 47,  113, 147, 205, 17,  79,  173, 243, 112, 46,
    204, 146, 211, 141, 111, 49,  178, 236, 14,  80,  175, 241, 19,  77,  206,
    144, 114, 44,  109, 51,  209, 143, 12,  82,  176, 238, 50,  108, 142, 208,
    83,  13,  239, 177, 240, 174, 76,  18,  145, 207, 45,  115, 202, 148, 118,
    40,  171, 245, 23,  73,  8,   86,  180, 234, 105, 55,  213, 139, 87,  9,
    235, 181, 54,  104, 138, 212, 149, 203, 41,  119, 244, 170, 72,  22,  233,
    183, 85,  11,  136, 214, 52,  106, 43,  117, 151, 201, 74,  20,  246, 168,
    116, 42,  200, 150, 21,  75,  169, 247, 182, 232, 10,  84,  215, 137, 107,
    53]

/-- The loop of `Dallas::crc8`: `while (len-- > 0) res = crc_table[res ^ *addr++]`.
The buffer is the list still ahead of the pointer; reading past its end is not
modelled (the loop stops there). -/
def crc8Loop : List Nat → Nat → Nat → Nat
  | _, 0, res => res
  | [], _ + 1, res => res
  | b :: rest, len + 1, res => crc8Loop rest len (crc_table.getD (res ^^^ b) 0)

/-- Method `Dallas::crc8(addr, len)`: the loop started with `res = 0x00`. -/
def crc8 (addr : List Nat) (len : Nat) : Nat :=
  crc8Loop addr len 0

/-- Method `Dallas::validAddress`: `crc8(deviceAddress, 7) == deviceAddress[7]`. -/
def validAddress (deviceAddress : List Nat) : Bool :=
  crc8 deviceAddress 7 == deviceAddress.getD 7 0

/-! ### The bit-by-bit reference CRC (written from the specification) -/

/-- One shift of the reflected Dallas/Maxim CRC-8 register: shift right by one bit
and, when the bit shifted out is set, xor in the reflected polynomial constant
`0x8C` (x^8 + x^5 + x^4 + 1). -/
def specCrcShift (crc : Nat) : Nat :=
  if crc % 2 = 1 then (crc / 2) ^^^ 0x8C else crc / 2

/-- Feed one byte, least-significant bit first: xor it into the register, then
shift eight times. -/
def specCrcByte (crc b : Nat) : Nat :=
  specCrcShift^[8] (crc ^^^ b)

/-- The bit-by-bit CRC-8 of a byte sequence: initial value 0, no final xor. -/
def specCrc8 (bytes : List Nat) : Nat :=
  bytes.foldl specCrcByte 0

/-- The address with one bit flipped: bit `p % 8` of byte `p / 8`. -/
def flipBit (a : List Nat) (p : Nat) : List Nat :=
  a.set (p / 8) (a.getD (p / 8) 0 ^^^ 2 ^ (p % 8))

/-! ## Constants of `Dallas.cpp` -/

/-- Model ID of the DS18S20 (also DS1820), the legacy family. -/
abbrev DS18S20MODEL : Nat := 0x10
/-- Model ID of the DS18B20. -/
abbrev DS18B20MODEL : Nat := 0x28
/-- Model ID of the DS1822. -/
abbrev DS1822MODEL : Nat := 0x22
/-- Model ID of the DS1825. -/
abbrev DS1825MODEL : Nat := 0x3B
/-- Model ID of the DS28EA00. -/
abbrev DS28EA00MODEL : Nat := 0x42

/-- Command: start a temperature conversion. -/
abbrev STARTCONVO : Nat := 0x44
/-- Command: read the scratchpad. -/
abbrev READSCRATCH : Nat := 0xBE
/-- Command: write the scratchpad. -/
abbrev WRITESCRATCH : Nat := 0x4E
/-- Command: ask whether the device needs parasite power. -/
abbrev READPOWERSUPPLY : Nat := 0xB4

/-- Scratchpad location of the temperature LSB. -/
abbrev TEMP_LSB : Nat := 0
/-- Scratchpad location of the temperature MSB. -/
abbrev TEMP_MSB : Nat := 1
/-- Scratchpad location of the high alarm byte. -/
abbrev HIGH_ALARM_TEMP : Nat := 2
/-- Scratchpad location of the low alarm byte. -/
abbrev LOW_ALARM_TEMP : Nat := 3
/-- Scratchpad location of the configuration byte. -/
abbrev CONFIGURATION : Nat := 4
/-- Scratchpad location of the internal byte. -/
abbrev INTERNAL_BYTE : Nat := 5
/-- Scratchpad location of COUNT_REMAIN. -/
abbrev COUNT_REMAIN : Nat := 6
/-- Scratchpad location of COUNT_PER_C. -/
abbrev COUNT_PER_C : Nat := 7
/-- Scratchpad location of the CRC byte. -/
abbrev SCRATCHPAD_CRC : Nat := 8

/-- Configuration byte for 9 bit resolution. -/
abbrev TEMP_9_BIT : Nat := 0x1F
/-- Configuration byte for 10 bit resolution. -/
abbrev TEMP_10_BIT : Nat := 0x3F
/-- Configuration byte for 11 bit resolution. -/
abbrev TEMP_11_BIT : Nat := 0x5F
/-- Configuration byte for 12 bit resolution. -/
abbrev TEMP_12_BIT : Nat := 0x7F

/-- Modelled from the spec: the `MAX` helper comes from the platform header
`mgos.h`, which is not part of the sources; the specification calls the value it
yields the maximum of its two arguments. Each argument is evaluated once here;
whether the platform helper evaluates an argument expression twice is not
modelled. -/
def MAX (a b : Nat) : Nat := if a > b then a else b

/-- Content of a local `ScratchPad` buffer before anything is read into it. The
driver consumes such a buffer only after a successful read has overwritten it. -/
def uninitScratchPad : List Nat := List.replicate 9 0

/-- Content of a local `DeviceAddress` buffer before a search has filled it. -/
def uninitAddress : List Nat := List.replicate 8 0

/-! ## Scratchpad codec -/

variable {β : Type}

/-- Method `Dallas::readScratchPad`: reset and fail fast on no presence; otherwise
select, send `READSCRATCH`, read 9 bytes, reset again and report whether that
second reset returned 1. -/
def readScratchPad (ow : OnewireInterface β) (deviceAddress scratchPad : List Nat)
    (bus : β) : Bool × List Nat × β :=
  let b := ow.reset bus
  if b.1 == 0 then (false, scratchPad, b.2)
  else
    let bus2 := ow.select deviceAddress b.2
    let bus3 := ow.write READSCRATCH 0 bus2
    let rd := ow.read_bytes scratchPad 9 bus3
    let b2 := ow.reset rd.2
    (b2.1 == 1, rd.1, b2.2)

/-- Method `Dallas::isConnected(deviceAddress, scratchPad)`: the read succeeded and byte
8 equals `crc8` of the first 8 bytes. -/
def isConnected (ow : OnewireInterface β) (deviceAddress scratchPad : List Nat)
    (bus : β) : Bool × List Nat × β :=
  let r := readScratchPad ow deviceAddress scratchPad bus
  (r.1 && (crc8 r.2.1 8 == r.2.1.getD SCRATCHPAD_CRC 0), r.2.1, r.2.2)

/-- Method `Dallas::writeScratchPad`: reset, select, `WRITESCRATCH`, the two alarm bytes,
the configuration byte unless the device is a DS18S20, reset. -/
def writeScratchPad (ow : OnewireInterface β) (deviceAddress scratchPad : List Nat)
    (bus : β) : β :=
  let bus1 := (ow.reset bus).2
  let bus2 := ow.select deviceAddress bus1
  let bus3 := ow.write WRITESCRATCH 0 bus2
  let bus4 := ow.write (scratchPad.getD HIGH_ALARM_TEMP 0) 0 bus3
  let bus5 := ow.write (scratchPad.getD LOW_ALARM_TEMP 0) 0 bus4
  let bus6 :=
    if deviceAddress.getD 0 0 != DS18S20MODEL then
      ow.write (scratchPad.getD CONFIGURATION 0) 0 bus5
    else bus5
  (ow.reset bus6).2

/-- Method `Dallas::readPowerSupply`: reset, select, `READPOWERSUPPLY`, read one bit (0
means parasite power), reset. -/
def readPowerSupply (ow : OnewireInterface β) (deviceAddress : List Nat) (bus : β) :
    Bool × β :=
  let bus1 := (ow.reset bus).2
  let bus2 := ow.select deviceAddress bus1
  let bus3 := ow.write READPOWERSUPPLY 0 bus2
  let bit := ow.read_bit bus3
  (bit.1 == 0, (ow.reset bit.2).2)

/-! ## Resolution manager: per-device query -/

/-- Method `Dallas::getResolution(deviceAddress)`: 12 for a DS18S20 without touching the
bus; otherwise the resolution encoded by the configuration byte of a connected
device, and 0 when the device is not connected or the byte is none of the four
masks. -/
def getResolution (ow : OnewireInterface β) (deviceAddress : List Nat) (bus : β) :
    Nat × β :=
  if deviceAddress.getD 0 0 == DS18S20MODEL then (12, bus)
  else
    let c := isConnected ow deviceAddress uninitScratchPad bus
    if c.1 then
      let cfg := c.2.1.getD CONFIGURATION 0
      if cfg == TEMP_12_BIT then (12, c.2.2)
      else if cfg == TEMP_11_BIT then (11, c.2.2)
      else if cfg == TEMP_10_BIT then (10, c.2.2)
      else if cfg == TEMP_9_BIT then (9, c.2.2)
      else (0, c.2.2)
    else (0, c.2.2)

/-! ## Device registry -/

/-- The `while` loop of `Dallas::begin`. The transport decides when the search
ends, so the loop carries a step budget and yields `none` when it runs out. -/
def beginLoop (ow : OnewireInterface β) : Nat → List Nat → Dallas β → Option (Dallas β)
  | 0, _, _ => none
  | fuel + 1, deviceAddress, s =>
    let r := ow.search deviceAddress s.bus
    if r.1 != 0 then
      if validAddress r.2.1 then
        let p := if !s._parasite then readPowerSupply ow r.2.1 r.2.2 else (false, r.2.2)
        let g := getResolution ow r.2.1 p.2
        beginLoop ow fuel r.2.1
          { s with
            _parasite := if !s._parasite && p.1 then true else s._parasite
            _bitResolution := MAX s._bitResolution g.1
            _devices := (s._devices + 1) % 256
            bus := g.2 }
      else beginLoop ow fuel r.2.1 { s with bus := r.2.2 }
    else some { s with bus := r.2.2 }

/-- Method `Dallas::begin`: reset the search, zero the device count, run the loop. -/
def begin (ow : OnewireInterface β) (fuel : Nat) (s : Dallas β) : Option (Dallas β) :=
  beginLoop ow fuel uninitAddress { s with bus := ow.reset_search s.bus, _devices := 0 }

/-- The `while` loop of `Dallas::getAddress`; `depth` is a `uint8_t`. With index
255 the guard `depth <= index` never fails, so this loop too carries a budget. -/
def getAddressLoop (ow : OnewireInterface β) (index : Nat) :
    Nat → Nat → List Nat → β → Option (Bool × List Nat × β)
  | 0, _, _, _ => none
  | fuel + 1, depth, deviceAddress, bus =>
    if depth ≤ index then
      let r := ow.search deviceAddress bus
      if r.1 != 0 then
        if depth == index && validAddress r.2.1 then some (true, r.2.1, r.2.2)
        else getAddressLoop ow index fuel ((depth + 1) % 256) r.2.1 r.2.2
      else some (false, r.2.1, r.2.2)
    else some (false, deviceAddress, bus)

/-- Method `Dallas::getAddress(deviceAddress, index)`. -/
def getAddress (ow : OnewireInterface β) (fuel : Nat) (deviceAddress : List Nat)
    (index : Nat) (bus : β) : Option (Bool × List Nat × β) :=
  getAddressLoop ow index fuel 0 deviceAddress (ow.reset_search bus)

/-! ## Resolution manager: per-device change -/

/-- The recalculation loop of the per-device `setResolution`:
`for (i = 0; i < _devices; i++) { getAddress(deviceAddr, i); _bitResolution =
MAX(_bitResolution, getResolution(deviceAddr)); }`, counted down on the number
of iterations left. -/
def recalcLoop (ow : OnewireInterface β) (fuel : Nat) :
    Nat → Nat → List Nat → Nat → β → Option (Nat × β)
  | 0, _, _, bitResolution, bus => some (bitResolution, bus)
  | left + 1, i, deviceAddr, bitResolution, bus =>
    match getAddress ow fuel deviceAddr i bus with
    | none => none
    | some a =>
      let g := getResolution ow a.2.1 a.2.2
      recalcLoop ow fuel left (i + 1) a.2.1 (MAX bitResolution g.1) g.2

/-- Method `Dallas::setResolution(deviceAddress, newResolution,
skipGlobalBitResolutionCalculation)`. -/
def setResolution (ow : OnewireInterface β) (fuel : Nat) (deviceAddress : List Nat)
    (newResolution : Nat) (skipGlobalBitResolutionCalculation : Bool) (s : Dallas β) :
    Option (Bool × Dallas β) :=
  let newResolution :=
    if newResolution < 9 then 9 else (if newResolution > 12 then 12 else newResolution)
  let g := getResolution ow deviceAddress s.bus
  if g.1 == newResolution then some (true, { s with bus := g.2 })
  else
    let c := isConnected ow deviceAddress uninitScratchPad g.2
    if c.1 then
      if deviceAddress.getD 0 0 != DS18S20MODEL then
        let cfg :=
          if newResolution == 12 then TEMP_12_BIT
          else if newResolution == 11 then TEMP_11_BIT
          else if newResolution == 10 then TEMP_10_BIT
          else TEMP_9_BIT
        let scratchPad := c.2.1.set CONFIGURATION cfg
        let bus1 := writeScratchPad ow deviceAddress scratchPad c.2.2
        let bitResolution := MAX s._bitResolution newResolution
        if !skipGlobalBitResolutionCalculation && bitResolution > newResolution then
          match recalcLoop ow fuel s._devices 0 uninitAddress newResolution bus1 with
          | none => none
          | some r => some (true, { s with _bitResolution := r.1, bus := r.2 })
        else some (true, { s with _bitResolution := bitResolution, bus := bus1 })
      else some (true, { s with bus := c.2.2 })
    else some (false, { s with bus := c.2.2 })
/-- A session as left by the constructor `Dallas::Dallas()` followed by
`setOneWire(ow)`: no devices, no parasite power, 9 bit, both flags set. -/
def construct (bus : β) : Dallas β :=
  { _devices := 0, _parasite := false, _bitResolution := 9,
    _waitForConversion := true, _checkForConversion := true, bus := bus }

/-! ## Recording transport -/

/-- One call of a transport method, with its arguments. -/
inductive BusOp where
  | reset
  | select (rom : List Nat)
  | skip
  | write (v power : Nat)
  | read_bytes (count : Nat)
  | read_bit
  | reset_search
  | search
  deriving DecidableEq, Repr

/-- Any transport, wrapped so that every call is appended to a log. -/
def traced (ow : OnewireInterface β) : OnewireInterface (β × List BusOp) where
  reset := fun b => ((ow.reset b.1).1, (ow.reset b.1).2, b.2 ++ [BusOp.reset])
  select := fun rom b => (ow.select rom b.1, b.2 ++ [BusOp.select rom])
  skip := fun b => (ow.skip b.1, b.2 ++ [BusOp.skip])
  write := fun v power b => (ow.write v power b.1, b.2 ++ [BusOp.write v power])
  read_bytes := fun buf count b =>
    ((ow.read_bytes buf count b.1).1, (ow.read_bytes buf count b.1).2,
      b.2 ++ [BusOp.read_bytes count])
  read_bit := fun b => ((ow.read_bit b.1).1, (ow.read_bit b.1).2, b.2 ++ [BusOp.read_bit])
  reset_search := fun b => (ow.reset_search b.1, b.2 ++ [BusOp.reset_search])
  search := fun buf b =>
    ((ow.search buf b.1).1, (ow.search buf b.1).2.1, (ow.search buf b.1).2.2,
      b.2 ++ [BusOp.search])

/-! ## Simulated bus

A deterministic transport for a population of simulated thermometers: each
device has a ROM address, the first eight scratchpad bytes and a power mode, and
answers a scratchpad read with those eight bytes followed by their CRC. -/

/-- A simulated device. -/
structure SimDevice where
  /-- The 8-byte ROM address the search reports. -/
  rom : List Nat
  /-- Scratchpad bytes 0..7. -/
  scratch : List Nat
  /-- Whether the device is parasite powered. -/
  parasite : Bool
  deriving DecidableEq, Repr

/-- Where the simulated bus stands inside a transaction. -/
inductive SimPhase where
  /-- After a reset: waiting for a ROM command. -/
  | idle
  /-- One device is selected: waiting for a function command. -/
  | selected (rom : List Nat)
  /-- All devices are addressed. -/
  | broadcast
  /-- The selected device is sending its scratchpad. -/
  | reading (rom : List Nat)
  /-- The selected device is receiving scratchpad bytes; `count` have arrived. -/
  | writing (rom : List Nat) (count : Nat)
  /-- The selected device is answering a power supply query. -/
  | power (rom : List Nat)
  /-- Any other command is in progress. -/
  | busy
  deriving DecidableEq, Repr

/-- The simulated bus: its devices in search order, the search cursor and the
transaction phase. -/
structure SimBus where
  /-- Devices in search order. -/
  devices : List SimDevice
  /-- Number of addresses the running search has already reported. -/
  cursor : Nat
  /-- Phase of the current transaction. -/
  phase : SimPhase
  deriving DecidableEq, Repr

/-- The device that answers to a ROM address. -/
def simFind (devices : List SimDevice) (rom : List Nat) : Option SimDevice :=
  devices.find? (fun d => d.rom == rom)

/-- Store a received scratchpad byte: the bytes after `WRITESCRATCH` go to the
high alarm, low alarm and configuration locations; a DS18S20 takes two only. -/
def simStore (devices : List SimDevice) (rom : List Nat) (count v : Nat) :
    List SimDevice :=
  devices.map (fun d =>
    if d.rom == rom && (count < 2 || (count == 2 && rom.getD 0 0 != DS18S20MODEL)) then
      { d with scratch := d.scratch.set (HIGH_ALARM_TEMP + count) v }
    else d)

/-- The nine bytes a device sends: scratchpad bytes 0..7 and their CRC. -/
def simScratchPad (d : SimDevice) : List Nat :=
  d.scratch ++ [crc8 d.scratch 8]

/-- Simulated `write`: a function command after a select, or a data byte of a
scratchpad write. -/
def simWrite (v : Nat) (b : SimBus) : SimBus :=
  match b.phase with
  | SimPhase.selected rom =>
    if v == READSCRATCH then { b with phase := SimPhase.reading rom }
    else if v == WRITESCRATCH then { b with phase := SimPhase.writing rom 0 }
    else if v == READPOWERSUPPLY then { b with phase := SimPhase.power rom }
    else { b with phase := SimPhase.busy }
  | SimPhase.writing rom count =>
    { b with devices := simStore b.devices rom count v,
             phase := SimPhase.writing rom (count + 1) }
  | _ => { b with phase := SimPhase.busy }

/-- The bytes a scratchpad read of `rom` obtains: the device's nine bytes, or the
idle bus level (all ones) when no device answers to the address. -/
def simAnswer (devices : List SimDevice) (rom : List Nat) (count : Nat) : List Nat :=
  match simFind devices rom with
  | some d => (simScratchPad d).take count
  | none => List.replicate count 0xFF

/-- Simulated `read_bytes`: the scratchpad of the device being read, else the
idle bus level. -/
def simReadBytes (count : Nat) (b : SimBus) : List Nat × SimBus :=
  (match b.phase with
    | SimPhase.reading rom => simAnswer b.devices rom count
    | _ => List.replicate count 0xFF, b)

/-- Simulated `read_bit`: 0 from a parasite powered device answering a power
supply query, else 1. -/
def simReadBit (b : SimBus) : Nat × SimBus :=
  (match b.phase with
    | SimPhase.power rom =>
      match simFind b.devices rom with
      | some d => if d.parasite then 0 else 1
      | none => 1
    | _ => 1, b)

/-- Simulated `search`: report the device under the cursor and advance. -/
def simSearch (buf : List Nat) (b : SimBus) : Nat × List Nat × SimBus :=
  match b.devices.get? b.cursor with
  | some d => (1, d.rom, { b with cursor := b.cursor + 1 })
  | none => (0, buf, b)

/-- The simulated transport. -/
def simOw : OnewireInterface SimBus :=
  { reset := fun b =>
      (if b.devices.isEmpty then 0 else 1, { b with phase := SimPhase.idle })
    select := fun rom b => { b with phase := SimPhase.selected rom }
    skip := fun b => { b with phase := SimPhase.broadcast }
    write := fun v _ b => simWrite v b
    read_bytes := fun _ count b => simReadBytes count b
    read_bit := simReadBit
    reset_search := fun b => { b with cursor := 0 }
    search := simSearch }

/-- The addresses the running search has still to report. -/
def simPending (b : SimBus) : List (List Nat) :=
  (b.devices.drop b.cursor).map (fun d => d.rom)

/-- The search contract of a transport: `pending` names the addresses the running
search has still to yield; `search` hands them out one by one and then reports
none, and no other method disturbs the search. -/
structure SearchContract (ow : OnewireInterface β) (pending : β → List (List Nat)) :
    Prop where
  /-- A reset cycle leaves the search alone. -/
  reset : ∀ b, pending (ow.reset b).2 = pending b
  /-- Selecting a device leaves the search alone. -/
  select : ∀ rom b, pending (ow.select rom b) = pending b
  /-- Writing a byte leaves the search alone. -/
  write : ∀ v power b, pending (ow.write v power b) = pending b
  /-- Reading bytes leaves the search alone. -/
  read_bytes : ∀ buf count b, pending (ow.read_bytes buf count b).2 = pending b
  /-- Reading a bit leaves the search alone. -/
  read_bit : ∀ b, pending (ow.read_bit b).2 = pending b
  /-- The search yields the next pending address. -/
  search_next : ∀ buf b a rest, pending b = a :: rest →
    (ow.search buf b).1 ≠ 0 ∧ (ow.search buf b).2.1 = a ∧
      pending (ow.search buf b).2.2 = rest
  /-- The search reports none when nothing is pending, and stays exhausted. -/
  search_done : ∀ buf b, pending b = [] →
    (ow.search buf b).1 = 0 ∧ pending (ow.search buf b).2.2 = []

/-! ## Reading aids for the resolution theorems -/

/-- The clamp at the head of both `setResolution` overloads. -/
def clampResolution (r : Nat) : Nat :=
  if r < 9 then 9 else (if r > 12 then 12 else r)

/-- The resolution `getResolution` reads off a configuration byte. -/
def configResolution (cfg : Nat) : Nat :=
  if cfg == TEMP_12_BIT then 12
  else if cfg == TEMP_11_BIT then 11
  else if cfg == TEMP_10_BIT then 10
  else if cfg == TEMP_9_BIT then 9
  else 0

/-- The configuration byte `setResolution` stores for a resolution. -/
def resolutionConfig (r : Nat) : Nat :=
  if r == 12 then TEMP_12_BIT
  else if r == 11 then TEMP_11_BIT
  else if r == 10 then TEMP_10_BIT
  else TEMP_9_BIT

/-! ## Sample devices -/

/-- A valid DS18B20 address. -/
def romA : List Nat := [0x28, 1, 2, 3, 4, 5, 6, 0x9E]
/-- A second valid DS18B20 address. -/
def romB : List Nat := [0x28, 9, 9, 9, 9, 9, 9, 0x48]
/-- A valid DS1822 address. -/
def romC : List Nat := [0x22, 7, 7, 7, 7, 7, 7, 0x50]
/-- An address whose CRC byte is wrong (`romA` with bit 0 of byte 1 flipped). -/
def romBad : List Nat := [0x28, 0, 2, 3, 4, 5, 6, 0x9E]
/-- A valid DS18S20 (legacy family) address. -/
def romLegacy : List Nat := [0x10, 0xAA, 0xBB, 0xCC, 1, 2, 3, 0xA4]

/-- A simulated device with the given address and configuration byte. -/
def simDevice (rom : List Nat) (config : Nat) : SimDevice :=
  { rom := rom, scratch := [0x50, 0x05, 0x4B, 0x46, config, 0xFF, 0x0C, 0x10],
    parasite := false }

/-- A simulated bus in its initial state. -/
def simBus (devices : List SimDevice) : SimBus :=
  { devices := devices, cursor := 0, phase := SimPhase.idle }

/-! ## A transport with scripted presence answers -/

/-- A transport whose bus state is the list of answers its next reset cycles will
give (0 once the list is used up); nothing answers reads or searches. It stands
for a bus whose device stops responding in the middle of a transaction. -/
def scriptOw : OnewireInterface (List Nat) :=
  { reset := fun b => (b.headD 0, b.tail)
    select := fun _ b => b
    skip := fun b => b
    write := fun _ _ b => b
    read_bytes := fun _ count b => (List.replicate count 0xFF, b)
    read_bit := fun b => (1, b)
    reset_search := fun b => b
    search := fun buf b => (0, buf, b) }

/-! ## Resolution manager: bus-wide change -/

/-- The loop of the bus-wide `setResolution`:
`for (i = 0; i < _devices; i++) { getAddress(deviceAddress, i);
setResolution(deviceAddress, _bitResolution, true); }`, counted down on the number
of iterations left; both results are discarded, as in the source. -/
def setGlobalResolutionLoop (ow : OnewireInterface β) (fuel : Nat) :
    Nat → Nat → List Nat → Dallas β → Option (Dallas β)
  | 0, _, _, s => some s
  | left + 1, i, deviceAddress, s =>
    match getAddress ow fuel deviceAddress i s.bus with
    | none => none
    | some a =>
      match setResolution ow fuel a.2.1 s._bitResolution true { s with bus := a.2.2 } with
      | none => none
      | some r => setGlobalResolutionLoop ow fuel left (i + 1) a.2.1 r.2

/-- Method `Dallas::setResolution(newResolution)`, the bus-wide overload (exposed as
`mgos_dallas_set_global_resolution`): store the clamped value, then apply it to
the address found at every index below the device count. -/
def setGlobalResolution (ow : OnewireInterface β) (fuel : Nat) (newResolution : Nat)
    (s : Dallas β) : Option (Dallas β) :=
  setGlobalResolutionLoop ow fuel s._devices 0 uninitAddress
    { s with _bitResolution :=
        if newResolution < 9 then 9 else (if newResolution > 12 then 12 else newResolution) }

/-! ## Conversion controller -/

/-- The two platform services of `mgos.h` that the driver calls, as state-passing
functions over the same state as the transport. -/
structure Platform (β : Type) where
  /-- The value of `(uint64_t)(mgos_uptime() * 1000 * 1000)`: the uptime in
  microseconds. -/
  uptime_micros : β → Nat × β
  /-- The call `mgos_usleep(usecs)`. -/
  mgos_usleep : Nat → β → β

/-- Method `Dallas::millisToWaitForConversion`. -/
def millisToWaitForConversion (bitResolution : Nat) : Nat :=
  if bitResolution == 9 then 94
  else if bitResolution == 10 then 188
  else if bitResolution == 11 then 375
  else 750

/-- Method `Dallas::isConversionComplete`: read one bit, ready when it is 1. -/
def isConversionComplete (ow : OnewireInterface β) (bus : β) : Bool × β :=
  let b := ow.read_bit bus
  (b.1 == 1, b.2)

/-- The polling loop of `Dallas::blockTillConversionComplete`:
`while (!isConversionComplete() && (uptime_micros - delms < now));` in 64-bit
unsigned arithmetic. The ready bit and the clock decide when it ends, so the loop
carries a step budget. -/
def blockLoop (ow : OnewireInterface β) (pf : Platform β) (delms now : Nat) :
    Nat → β → Option β
  | 0, _ => none
  | fuel + 1, bus =>
    let c := isConversionComplete ow bus
    if !c.1 then
      let t := pf.uptime_micros c.2
      if (t.1 % 2 ^ 64 + 2 ^ 64 - delms) % 2 ^ 64 < now then blockLoop ow pf delms now fuel t.2
      else some t.2
    else some c.2

/-- Method `Dallas::blockTillConversionComplete`: poll when checking is enabled and
the bus is not parasite powered, else sleep for the whole conversion time. -/
def blockTillConversionComplete (ow : OnewireInterface β) (pf : Platform β) (fuel : Nat)
    (bitResolution : Nat) (s : Dallas β) : Option (Dallas β) :=
  let delms := 1000 * millisToWaitForConversion bitResolution
  if s._checkForConversion && !s._parasite then
    let now := pf.uptime_micros s.bus
    (blockLoop ow pf delms (now.1 % 2 ^ 64) fuel now.2).map (fun bus => { s with bus := bus })
  else some { s with bus := pf.mgos_usleep delms s.bus }

/-- Method `Dallas::requestTemperatures`: reset, skip, `STARTCONVO` with the parasite
flag as power argument, then wait unless `_waitForConversion` is off. -/
def requestTemperatures (ow : OnewireInterface β) (pf : Platform β) (fuel : Nat)
    (s : Dallas β) : Option (Dallas β) :=
  let bus1 := (ow.reset s.bus).2
  let bus2 := ow.skip bus1
  let bus3 := ow.write STARTCONVO (if s._parasite then 1 else 0) bus2
  if !s._waitForConversion then some { s with bus := bus3 }
  else blockTillConversionComplete ow pf fuel s._bitResolution { s with bus := bus3 }

/-- Method `Dallas::requestTemperaturesByAddress`: false when `getResolution` yields
0; otherwise reset, select, `STARTCONVO` with the parasite flag as power argument,
then wait unless `_waitForConversion` is off, and true. -/
def requestTemperaturesByAddress (ow : OnewireInterface β) (pf : Platform β) (fuel : Nat)
    (deviceAddress : List Nat) (s : Dallas β) : Option (Bool × Dallas β) :=
  let g := getResolution ow deviceAddress s.bus
  if g.1 == 0 then some (false, { s with bus := g.2 })
  else
    let bus1 := (ow.reset g.2).2
    let bus2 := ow.select deviceAddress bus1
    let bus3 := ow.write STARTCONVO (if s._parasite then 1 else 0) bus2
    if !s._waitForConversion then some (true, { s with bus := bus3 })
    else
      (blockTillConversionComplete ow pf fuel g.1 { s with bus := bus3 }).map
        (fun s' => (true, s'))

/-! ## Recording transport and platform -/

/-- One observable step of the driver: a transport call or a platform call. -/
inductive Event where
  | bus (op : BusOp)
  | uptime
  | usleep (usecs : Nat)
  deriving DecidableEq, Repr

/-- Any transport, wrapped so that every call is appended to an event log. -/
def recordOw (ow : OnewireInterface β) : OnewireInterface (β × List Event) :=
  { reset := fun b => ((ow.reset b.1).1, (ow.reset b.1).2, b.2 ++ [Event.bus BusOp.reset])
    select := fun rom b => (ow.select rom b.1, b.2 ++ [Event.bus (BusOp.select rom)])
    skip := fun b => (ow.skip b.1, b.2 ++ [Event.bus BusOp.skip])
    write := fun v power b =>
      (ow.write v power b.1, b.2 ++ [Event.bus (BusOp.write v power)])
    read_bytes := fun buf count b =>
      ((ow.read_bytes buf count b.1).1, (ow.read_bytes buf count b.1).2,
        b.2 ++ [Event.bus (BusOp.read_bytes count)])
    read_bit := fun b =>
      ((ow.read_bit b.1).1, (ow.read_bit b.1).2, b.2 ++ [Event.bus BusOp.read_bit])
    reset_search := fun b => (ow.reset_search b.1, b.2 ++ [Event.bus BusOp.reset_search])
    search := fun buf b =>
      ((ow.search buf b.1).1, (ow.search buf b.1).2.1, (ow.search buf b.1).2.2,
        b.2 ++ [Event.bus BusOp.search]) }

/-- Any platform, wrapped so that every call is appended to the event log. -/
def recordPf (pf : Platform β) : Platform (β × List Event) :=
  { uptime_micros := fun b =>
      ((pf.uptime_micros b.1).1, (pf.uptime_micros b.1).2, b.2 ++ [Event.uptime])
    mgos_usleep := fun usecs b => (pf.mgos_usleep usecs b.1, b.2 ++ [Event.usleep usecs]) }

/-! ## Simulated clock -/

/-- A transport acting on the bus half of a state that also holds a clock. -/
def clockedOw (ow : OnewireInterface β) : OnewireInterface (β × Nat) :=
  { reset := fun w => ((ow.reset w.1).1, (ow.reset w.1).2, w.2)
    select := fun rom w => (ow.select rom w.1, w.2)
    skip := fun w => (ow.skip w.1, w.2)
    write := fun v power w => (ow.write v power w.1, w.2)
    read_bytes := fun buf count w =>
      ((ow.read_bytes buf count w.1).1, (ow.read_bytes buf count w.1).2, w.2)
    read_bit := fun w => ((ow.read_bit w.1).1, (ow.read_bit w.1).2, w.2)
    reset_search := fun w => (ow.reset_search w.1, w.2)
    search := fun buf w =>
      ((ow.search buf w.1).1, (ow.search buf w.1).2.1, (ow.search buf w.1).2.2, w.2) }

/-- A simulated platform: the clock half of the state is the uptime in
microseconds; reading it takes `tick` microseconds and a sleep lasts exactly as
long as asked. -/
def simPf (tick : Nat) : Platform (β × Nat) :=
  { uptime_micros := fun w => (w.2, w.1, w.2 + tick)
    mgos_usleep := fun usecs w => (w.1, w.2 + usecs) }

/-- A recorded simulated world: one DS18B20 at 10 bits, the clock at 5 seconds of
uptime, nothing on record yet. -/
def simWorld : (SimBus × Nat) × List Event :=
  ((simBus [simDevice romB TEMP_10_BIT], 5000000), [])

/-- A fresh session over `simWorld`: it waits for conversions by polling. -/
def simSession : Dallas ((SimBus × Nat) × List Event) :=
  construct simWorld

/-- A session over `simWorld` that waits for conversions by sleeping. -/
def simSessionSleep : Dallas ((SimBus × Nat) × List Event) :=
  { construct simWorld with _checkForConversion := false }

/-! ## Temperature decoder -/

/-- The value an `int` takes when it is stored in an `int16_t`: reduced modulo
2^16 into -32768..32767. -/
def toInt16 (x : Int) : Int :=
  (x + 32768) % 65536 - 32768

/-- Method `Dallas::calculateTemperature`. The two temperature bytes are combined in
`int` arithmetic and stored in the `int16_t fpTemperature`; for a DS18S20 the
correction is computed in `int` arithmetic (`<< 7` of the possibly negative
count difference taken as multiplication by 128, `/` truncating toward zero) and
stored back. The division by `scratchPad[COUNT_PER_C]` is undefined when that byte
is 0: the result is then `none`. -/
def calculateTemperature (deviceAddress scratchPad : List Nat) : Option Int :=
  let fpTemperature : Int :=
    toInt16 (((scratchPad.getD TEMP_MSB 0 <<< 11) ||| (scratchPad.getD TEMP_LSB 0 <<< 3) : Nat) : Int)
  if deviceAddress.getD 0 0 == DS18S20MODEL then
    if scratchPad.getD COUNT_PER_C 0 == 0 then none
    else
      some (toInt16
        (((((fpTemperature % 65536).toNat &&& 0xfff0) <<< 3 : Nat) : Int) - 16 +
          Int.tdiv
            ((((scratchPad.getD COUNT_PER_C 0 : Nat) : Int) -
              ((scratchPad.getD COUNT_REMAIN 0 : Nat) : Int)) * 128)
            ((scratchPad.getD COUNT_PER_C 0 : Nat) : Int)))
  else some fpTemperature

/-- The constants of `dallas_defines.h`, which is not part of the sources: the
"disconnected" sentinels in raw, Celsius and Fahrenheit form. -/
structure DallasDefines where
  /-- Raw sentinel (`int16_t`). -/
  DEVICE_DISCONNECTED_RAW : Int
  /-- Celsius sentinel. -/
  DEVICE_DISCONNECTED_C : ℚ
  /-- Fahrenheit sentinel. -/
  DEVICE_DISCONNECTED_F : ℚ

/-- Sample values for the sentinels, those of the Arduino library this driver
derives from: -7040 raw, -127 Celsius, -196.6 Fahrenheit. -/
def sampleDefines : DallasDefines :=
  { DEVICE_DISCONNECTED_RAW := -7040, DEVICE_DISCONNECTED_C := -127,
    DEVICE_DISCONNECTED_F := -1966 / 10 }

/-- Method `Dallas::getTemp`: the decoded temperature of a connected device, else the
raw sentinel; `none` where the decoding is undefined. -/
def getTemp (ow : OnewireInterface β) (defs : DallasDefines) (deviceAddress : List Nat)
    (bus : β) : Option (Int × β) :=
  let c := isConnected ow deviceAddress uninitScratchPad bus
  if c.1 then (calculateTemperature deviceAddress c.2.1).map (fun t => (t, c.2.2))
  else some (defs.DEVICE_DISCONNECTED_RAW, c.2.2)

/-- Method `Dallas::rawToCelsius`: the sentinel at or below the raw sentinel, else
`(float) raw * 0.0078125`. The value is kept as a rational: `raw` has 16 bits and
0.0078125 is 2^-7, so the product is exact in `float` and `double`. -/
def rawToCelsius (defs : DallasDefines) (raw : Int) : ℚ :=
  if raw ≤ defs.DEVICE_DISCONNECTED_RAW then defs.DEVICE_DISCONNECTED_C
  else (raw : ℚ) * (1 / 128)

/-- Method `Dallas::getTempC`: `rawToCelsius(getTemp(deviceAddress))`. -/
def getTempC (ow : OnewireInterface β) (defs : DallasDefines) (deviceAddress : List Nat)
    (bus : β) : Option (ℚ × β) :=
  (getTemp ow defs deviceAddress bus).map (fun t => (rawToCelsius defs t.1, t.2))

/-- Method `Dallas::getTempCByIndex`: the Celsius sentinel when `getAddress` fails,
else `getTempC` of the address found; `none` also when the search never ends
within the step budget. -/
def getTempCByIndex (ow : OnewireInterface β) (defs : DallasDefines) (fuel : Nat)
    (deviceIndex : Nat) (bus : β) : Option (ℚ × β) :=
  match getAddress ow fuel uninitAddress deviceIndex bus with
  | none => none
  | some a =>
    if !a.1 then some (defs.DEVICE_DISCONNECTED_C, a.2.2)
    else getTempC ow defs a.2.1 a.2.2

/-! ## Adaptation layer: integer Celsius readout -/

/-- The C library function `round` on the values that occur here: to the nearest
integer, halfway cases away from zero. -/
def cRound (x : ℚ) : Int :=
  if 0 ≤ x then ⌊x + 1 / 2⌋ else -⌊-x + 1 / 2⌋

/-- The conversion `(int) x` of a floating value: truncation toward zero. -/
def cTrunc (x : ℚ) : Int :=
  if 0 ≤ x then ⌊x⌋ else -⌊-x⌋

/-- Function `mgos_dallas_get_tempc` of `mgos_dallas_interface.cpp`:
`(NULL == dt) ? DEVICE_DISCONNECTED_C : round(dt->getTempC(addr) * 100.0)`,
converted to the `int` it returns; the handle is `none` for `NULL`. The products
with 100.0 are multiples of 1/32 below 2^24 in size, exact in `double`. -/
def mgos_dallas_get_tempc (ow : OnewireInterface β) (defs : DallasDefines)
    (dt : Option (Dallas β)) (addr : List Nat) : Option (Int × Option (Dallas β)) :=
  match dt with
  | none => some (cTrunc defs.DEVICE_DISCONNECTED_C, none)
  | some s =>
    (getTempC ow defs addr s.bus).map
      (fun t => (cTrunc ((cRound (t.1 * 100) : Int) : ℚ), some { s with bus := t.2 }))

/-- Function `mgos_dallas_get_tempc_by_index` of `mgos_dallas_interface.cpp`:
`(NULL == dt) ? DEVICE_DISCONNECTED_C : (int) (0.5 + dt->getTempCByIndex(idx) * 100.0)`;
the index reaches the driver as a `uint8_t`. -/
def mgos_dallas_get_tempc_by_index (ow : OnewireInterface β) (defs : DallasDefines)
    (fuel : Nat) (dt : Option (Dallas β)) (idx : Nat) : Option (Int × Option (Dallas β)) :=
  match dt with
  | none => some (cTrunc defs.DEVICE_DISCONNECTED_C, none)
  | some s =>
    (getTempCByIndex ow defs fuel (idx % 256) s.bus).map
      (fun t => (cTrunc (1 / 2 + t.1 * 100), some { s with bus := t.2 }))

/-! ## The datasheet equation (written from the specification) -/

/-- The extended-resolution temperature of the DS18S20 datasheet in raw units of
1/128 degree: 128 * (TEMP_READ - 0.25 + (COUNT_PER_C - COUNT_REMAIN) / COUNT_PER_C),
where TEMP_READ is the 9-bit reading (two's complement, units of half a degree)
with the half-degree bit truncated. -/
def specLegacyRaw (scratchPad : List Nat) : ℚ :=
  let reading : Int :=
    toInt16 ((scratchPad.getD TEMP_MSB 0 * 256 + scratchPad.getD TEMP_LSB 0 : Nat) : Int)
  let tempRead : Int := reading / 2
  128 * ((tempRead : ℚ) - 1 / 4 +
    (((scratchPad.getD COUNT_PER_C 0 : Nat) : ℚ) - ((scratchPad.getD COUNT_REMAIN 0 : Nat) : ℚ)) /
      ((scratchPad.getD COUNT_PER_C 0 : Nat) : ℚ))

/-! ## More sample devices -/

/-- A transport on which nothing ever answers a poll: every reset reports
presence and every bit read is 0 (a conversion that never completes). -/
def busyOw : OnewireInterface Unit :=
  { reset := fun b => (1, b)
    select := fun _ b => b
    skip := fun b => b
    write := fun _ _ b => b
    read_bytes := fun _ count b => (List.replicate count 0, b)
    read_bit := fun b => (0, b)
    reset_search := fun b => b
    search := fun buf b => (0, buf, b) }

/-- A simulated DS18B20 reading -1.25 degrees: register 0xFFEC, raw -160. -/
def coldDevice : SimDevice :=
  { rom := romB, scratch := [0xEC, 0xFF, 0x4B, 0x46, 0x7F, 0xFF, 0x0C, 0x10],
    parasite := false }

/-- A simulated DS18S20 with the datasheet power-on scratchpad: temperature
register 0x00AA (85 degrees), COUNT_REMAIN 0x0C, COUNT_PER_C 0x10. -/
def powerOnLegacyDevice : SimDevice :=
  { rom := romLegacy, scratch := [0xAA, 0x00, 0x4B, 0x46, 0xFF, 0xFF, 0x0C, 0x10],
    parasite := false }

/-- A simulated DS18S20 that answers a scratchpad read with zeros only. -/
def zeroLegacyDevice : SimDevice :=
  { rom := romLegacy, scratch := List.replicate 8 0, parasite := false }

/-- A session over `simWorld` whose parasite flag is set. -/
def simSessionParasite : Dallas ((SimBus × Nat) × List Event) :=
  { construct simWorld with _parasite := true }

/-- A session over `simWorld` with the parasite flag set that does not wait for
conversions. -/
def simSessionParasiteNoWait : Dallas ((SimBus × Nat) × List Event) :=
  { construct simWorld with _parasite := true, _waitForConversion := false }

/-! ## CRC lemmas -/

theorem crc_table_entry_lt : ∀ i, crc_table.getD i 0 < 256 := by
  intro i
  by_cases h : i < 256
  · have key : ∀ j < 256, crc_table.getD j 0 < 256 := by decide!
    exact key i h
  · rw [List.getD_eq_default _ _ (by simpa [show crc_table.length = 256 by decide!] using h)]
    decide

theorem crc_table_index_roundtrip :
    ∀ i < 256, crc_table.indexOf (crc_table.getD i 0) = i := by decide!

theorem crc_table_injective {i j : Nat} (hi : i < 256) (hj : j < 256)
    (h : crc_table.getD i 0 = crc_table.getD j 0) : i = j := by
  have h1 := crc_table_index_roundtrip i hi
  have h2 := crc_table_index_roundtrip j hj
  rw [h] at h1
  omega

theorem crc_table_eq_bitwise : ∀ i < 256, crc_table.getD i 0 = specCrcByte 0 i := by
  decide!

theorem byte_xor_lt {a b : Nat} (ha : a < 256) (hb : b < 256) : a ^^^ b < 256 :=
  Nat.xor_lt_two_pow (n := 8) ha hb

theorem crc8Loop_lt (l : List Nat) (len res : Nat) (hres : res < 256) :
    crc8Loop l len res < 256 := by
  induction l generalizing len res with
  | nil => cases len <;> simpa [crc8Loop] using hres
  | cons b rest ih =>
    cases len with
    | zero => simpa [crc8Loop] using hres
    | succ n => simpa [crc8Loop] using ih n _ (crc_table_entry_lt _)

/-- Distinct running values stay distinct: every step is a bijection of the byte
range. -/
theorem crc8Loop_ne (l : List Nat) (len r r' : Nat) (hl : ∀ x ∈ l, x < 256)
    (hr : r < 256) (hr' : r' < 256) (hne : r ≠ r') :
    crc8Loop l len r ≠ crc8Loop l len r' := by
  induction l generalizing len r r' with
  | nil => cases len <;> simpa [crc8Loop] using hne
  | cons b rest ih =>
    cases len with
    | zero => simpa [crc8Loop] using hne
    | succ n =>
      have hb : b < 256 := hl b (List.mem_cons_self _ _)
      simp only [crc8Loop]
      apply ih n _ _ (fun x hx => hl x (List.mem_cons_of_mem _ hx))
        (crc_table_entry_lt _) (crc_table_entry_lt _)
      intro h
      have := crc_table_injective (byte_xor_lt hr hb) (byte_xor_lt hr' hb) h
      exact hne (Nat.xor_left_injective this)

/-- Changing a byte that the loop consumes changes the result. -/
theorem crc8Loop_set_ne (l : List Nat) (i len r v : Nat) (hl : ∀ x ∈ l, x < 256)
    (hr : r < 256) (hv : v < 256) (hi : i < len) (hil : i < l.length)
    (hne : v ≠ l.getD i 0) :
    crc8Loop (l.set i v) len r ≠ crc8Loop l len r := by
  induction l generalizing i len r with
  | nil => simp at hil
  | cons b rest ih =>
    have hb : b < 256 := hl b (List.mem_cons_self _ _)
    have hrest : ∀ x ∈ rest, x < 256 := fun x hx => hl x (List.mem_cons_of_mem _ hx)
    cases len with
    | zero => omega
    | succ n =>
      cases i with
      | zero =>
        simp only [List.set_cons_zero, crc8Loop]
        apply crc8Loop_ne rest n _ _ hrest (crc_table_entry_lt _) (crc_table_entry_lt _)
        intro h
        have := crc_table_injective (byte_xor_lt hr hv) (byte_xor_lt hr hb) h
        have hvb : v = b := Nat.xor_right_injective this
        exact hne (by simpa using hvb)
      | succ k =>
        simp only [List.set_cons_succ, crc8Loop]
        apply ih k n _ hrest (crc_table_entry_lt _) (by omega)
          (by simpa using hil)
        simpa using hne

/-- Changing a byte beyond the consumed prefix leaves the result alone. -/
theorem crc8Loop_set_ge (l : List Nat) (i len r v : Nat) (hi : len ≤ i) :
    crc8Loop (l.set i v) len r = crc8Loop l len r := by
  induction l generalizing i len r with
  | nil => simp
  | cons b rest ih =>
    cases len with
    | zero => simp [crc8Loop]
    | succ n =>
      cases i with
      | zero => omega
      | succ k =>
        simp only [List.set_cons_succ, crc8Loop]
        exact ih k n _ (by omega)

theorem crc8Loop_eq_foldl (l : List Nat) (len r : Nat) (hl : ∀ x ∈ l, x < 256)
    (hr : r < 256) :
    crc8Loop l len r = (l.take len).foldl specCrcByte r := by
  induction l generalizing len r with
  | nil => cases len <;> simp [crc8Loop]
  | cons b rest ih =>
    cases len with
    | zero => simp [crc8Loop]
    | succ n =>
      have hb : b < 256 := hl b (List.mem_cons_self _ _)
      simp only [crc8Loop, List.take_succ_cons, List.foldl_cons]
      rw [ih n _ (fun x hx => hl x (List.mem_cons_of_mem _ hx)) (crc_table_entry_lt _)]
      congr 1
      rw [crc_table_eq_bitwise _ (byte_xor_lt hr hb)]
      simp [specCrcByte]


/-! ## C1, C2: the CRC engine -/

theorem byte_flip_ne (x k : Nat) : x ^^^ 2 ^ k ≠ x := by
  intro h
  have h0 : x ^^^ 2 ^ k = x ^^^ 0 := by simpa using h
  have := Nat.xor_right_injective h0
  exact absurd this (by positivity)

theorem byte_flip_lt {x k : Nat} (hx : x < 256) (hk : k < 8) : x ^^^ 2 ^ k < 256 := by
  apply byte_xor_lt hx
  have : 2 ^ k ≤ 2 ^ 7 := Nat.pow_le_pow_right (by decide) (by omega)
  omega

/-- C1: every single-bit corruption of a CRC-valid 8-byte address is rejected by
`validAddress`, for each of the 64 bit positions. -/
theorem validAddress_rejects_bit_flip (a : List Nat) (p : Nat) (hlen : a.length = 8)
    (hbytes : ∀ x ∈ a, x < 256) (hvalid : validAddress a = true) (hp : p < 64) :
    validAddress (flipBit a p) = false := by
  have hi : p / 8 < 8 := by omega
  have hx : a.getD (p / 8) 0 < 256 := by
    rw [List.getD_eq_getElem _ _ (by omega)]
    exact hbytes _ (List.getElem_mem _)
  have hv := byte_flip_lt hx (Nat.mod_lt p (by decide : 8 > 0))
  have hne := byte_flip_ne (a.getD (p / 8) 0) (p % 8)
  simp only [validAddress, beq_iff_eq] at hvalid
  simp only [validAddress, flipBit, beq_eq_false_iff_ne, ne_eq]
  by_cases h7 : p / 8 < 7
  · have hcrc := crc8Loop_set_ne a (p / 8) 7 0 _ hbytes (by decide) hv h7 (by omega) hne
    have hlast : (a.set (p / 8) (a.getD (p / 8) 0 ^^^ 2 ^ (p % 8))).getD 7 0 = a.getD 7 0 := by
      simp only [List.getD_eq_getElem?_getD]
      rw [List.getElem?_set_ne (by omega)]
    rw [hlast, ← hvalid]
    exact hcrc
  · have h7' : p / 8 = 7 := by omega
    rw [h7'] at hne ⊢
    have hcrc := crc8Loop_set_ge a 7 7 0 (a.getD 7 0 ^^^ 2 ^ (p % 8)) (le_refl _)
    have hlast : (a.set 7 (a.getD 7 0 ^^^ 2 ^ (p % 8))).getD 7 0
        = a.getD 7 0 ^^^ 2 ^ (p % 8) := by
      simp only [List.getD_eq_getElem?_getD]
      rw [List.getElem?_set_self (by omega)]
      rfl
    unfold crc8
    rw [hlast, hcrc]
    unfold crc8 at hvalid
    rw [hvalid]
    exact fun h => hne h.symm

/-- Witness for C1: the valid address `romA` with bit 9 flipped is rejected. -/
theorem validAddress_rejects_bit_flip_witness :
    romA.length = 8 ∧ validAddress romA = true ∧ validAddress (flipBit romA 9) = false :=
  ⟨by decide, by decide!,
    validAddress_rejects_bit_flip romA 9 (by decide) (by decide) (by decide!) (by decide)⟩

/-- C2: on every byte sequence and every length (in particular the lengths 0..255
a `uint8_t len` can express) the table-driven `crc8` equals the bit-by-bit
Dallas/Maxim CRC-8 (reflected constant 0x8C, initial value 0, least significant
bit first, no final xor), and each of the 256 table entries is the bit-by-bit CRC
of its index taken as a single byte. -/
theorem crc8_eq_specCrc8 (bytes : List Nat) (len : Nat) (hbytes : ∀ x ∈ bytes, x < 256) :
    crc8 bytes len = specCrc8 (bytes.take len) ∧
      ∀ i < 256, crc_table.getD i 0 = specCrc8 [i] := by
  refine ⟨crc8Loop_eq_foldl bytes len 0 hbytes (by decide), ?_⟩
  intro i hi
  simpa [specCrc8] using crc_table_eq_bitwise i hi

/-- Witness for C2: the seven serial bytes of `romA`. -/
theorem crc8_eq_specCrc8_witness :
    crc8 [0x28, 1, 2, 3, 4, 5, 6] 7 = specCrc8 ([0x28, 1, 2, 3, 4, 5, 6].take 7) ∧
      ∀ i < 256, crc_table.getD i 0 = specCrc8 [i] :=
  crc8_eq_specCrc8 [0x28, 1, 2, 3, 4, 5, 6] 7 (by decide)

/-! ## C3: enumeration counts the CRC-valid addresses -/

theorem readScratchPad_bus (ow : OnewireInterface β) (a sp : List Nat) (b : β) :
    (readScratchPad ow a sp b).2.2 =
      if (ow.reset b).1 == 0 then (ow.reset b).2
      else (ow.reset (ow.read_bytes sp 9 (ow.write READSCRATCH 0
        (ow.select a (ow.reset b).2))).2).2 := by
  unfold readScratchPad
  dsimp only
  split_ifs <;> rfl

theorem isConnected_bus (ow : OnewireInterface β) (a sp : List Nat) (b : β) :
    (isConnected ow a sp b).2.2 = (readScratchPad ow a sp b).2.2 := rfl

theorem getResolution_bus (ow : OnewireInterface β) (a : List Nat) (b : β) :
    (getResolution ow a b).2 =
      if a.getD 0 0 == DS18S20MODEL then b
      else (readScratchPad ow a uninitScratchPad b).2.2 := by
  unfold getResolution
  dsimp only
  split_ifs <;> rfl

theorem pending_readScratchPad {ow : OnewireInterface β} {pending : β → List (List Nat)}
    (hc : SearchContract ow pending) (a sp : List Nat) (b : β) :
    pending (readScratchPad ow a sp b).2.2 = pending b := by
  rw [readScratchPad_bus]
  split_ifs
  · exact hc.reset b
  · rw [hc.reset, hc.read_bytes, hc.write, hc.select, hc.reset]

theorem pending_readPowerSupply {ow : OnewireInterface β} {pending : β → List (List Nat)}
    (hc : SearchContract ow pending) (a : List Nat) (b : β) :
    pending (readPowerSupply ow a b).2 = pending b := by
  simp only [readPowerSupply]
  rw [hc.reset, hc.read_bit, hc.write, hc.select, hc.reset]

theorem pending_getResolution {ow : OnewireInterface β} {pending : β → List (List Nat)}
    (hc : SearchContract ow pending) (a : List Nat) (b : β) :
    pending (getResolution ow a b).2 = pending b := by
  rw [getResolution_bus]
  split_ifs
  · rfl
  · exact pending_readScratchPad hc a _ b

/-- Under the search contract the loop of `begin` ends within one step per pending
address plus one, having counted the CRC-valid ones. -/
theorem beginLoop_devices {ow : OnewireInterface β} {pending : β → List (List Nat)}
    (hc : SearchContract ow pending) (addrs : List (List Nat)) :
    ∀ (fuel : Nat) (buf : List Nat) (s : Dallas β), pending s.bus = addrs →
      addrs.length < fuel → s._devices < 256 →
      ∃ s', beginLoop ow fuel buf s = some s' ∧
        s'._devices = (s._devices + (addrs.filter validAddress).length) % 256 := by
  induction addrs with
  | nil =>
    intro fuel buf s hp hfuel hdev
    obtain ⟨f, rfl⟩ : ∃ f, fuel = f + 1 := ⟨fuel - 1, by simp at hfuel; omega⟩
    have h0 := (hc.search_done buf s.bus hp).1
    refine ⟨{ s with bus := (ow.search buf s.bus).2.2 }, ?_, ?_⟩
    · simp [beginLoop, h0]
    · simp; omega
  | cons a rest ih =>
    intro fuel buf s hp hfuel hdev
    obtain ⟨f, rfl⟩ : ∃ f, fuel = f + 1 := ⟨fuel - 1, by simp at hfuel; omega⟩
    obtain ⟨h1, h2, h3⟩ := hc.search_next buf s.bus a rest hp
    have hf : rest.length < f := by simp at hfuel; omega
    by_cases hv : validAddress a = true
    · let p := if (!s._parasite) = true then readPowerSupply ow a (ow.search buf s.bus).2.2
        else (false, (ow.search buf s.bus).2.2)
      let g := getResolution ow a p.2
      have hpend : pending g.2 = rest := by
        show pending (getResolution ow a p.2).2 = rest
        rw [pending_getResolution hc]
        show pending (if (!s._parasite) = true then
          readPowerSupply ow a (ow.search buf s.bus).2.2
          else (false, (ow.search buf s.bus).2.2)).2 = rest
        split_ifs
        · rw [pending_readPowerSupply hc]; exact h3
        · exact h3
      obtain ⟨s', hs', hd'⟩ := ih f a
        { s with
          _parasite := if (!s._parasite && p.1) = true then true else s._parasite
          _bitResolution := MAX s._bitResolution g.1
          _devices := (s._devices + 1) % 256
          bus := g.2 } hpend hf (Nat.mod_lt _ (by norm_num))
      refine ⟨s', ?_, ?_⟩
      · rw [← hs']
        simp [beginLoop, h1, h2, hv, p, g]
      · rw [hd']
        simp only [List.filter_cons, hv, if_true, List.length_cons]
        omega
    · obtain ⟨s', hs', hd'⟩ := ih f a { s with bus := (ow.search buf s.bus).2.2 } h3 hf hdev
      refine ⟨s', ?_, ?_⟩
      · rw [← hs']
        simp [beginLoop, h1, h2, hv]
      · rw [hd']
        simp [List.filter_cons, hv]

/-- C3: when the transport's search yields a sequence of fewer than 256 addresses
(and whatever the other bus reads answer), `begin` terminates and the device count
is the number of addresses of the sequence that pass the CRC check. -/
theorem begin_counts_valid_addresses (ow : OnewireInterface β)
    (pending : β → List (List Nat)) (hc : SearchContract ow pending) (s : Dallas β)
    (addrs : List (List Nat)) (hseq : pending (ow.reset_search s.bus) = addrs)
    (hlen : addrs.length < 256) (fuel : Nat) (hfuel : addrs.length < fuel) :
    ∃ s', begin ow fuel s = some s' ∧
      s'._devices = (addrs.filter validAddress).length := by
  obtain ⟨s', hs', hd'⟩ := beginLoop_devices hc addrs fuel uninitAddress
    { s with bus := ow.reset_search s.bus, _devices := 0 } hseq hfuel (by simp)
  refine ⟨s', hs', ?_⟩
  rw [hd']
  have := List.length_filter_le validAddress addrs
  simp only [Nat.zero_add]
  exact Nat.mod_eq_of_lt (by omega)

/-! ## The simulated bus obeys the search contract -/

theorem simStore_rom (devices : List SimDevice) (rom : List Nat) (count v : Nat) :
    (simStore devices rom count v).map (fun d => d.rom) = devices.map (fun d => d.rom) := by
  unfold simStore
  rw [List.map_map]
  apply List.map_congr_left
  intro d _
  simp only [Function.comp]
  split_ifs <;> rfl

theorem simStore_length (devices : List SimDevice) (rom : List Nat) (count v : Nat) :
    (simStore devices rom count v).length = devices.length := by
  simp [simStore]

theorem simPending_eq (b : SimBus) :
    simPending b = (b.devices.map (fun d => d.rom)).drop b.cursor := by
  simp [simPending, List.map_drop]

theorem simWrite_cursor (v : Nat) (b : SimBus) : (simWrite v b).cursor = b.cursor := by
  unfold simWrite
  split
  · split_ifs <;> rfl
  · rfl
  · rfl

theorem simWrite_roms (v : Nat) (b : SimBus) :
    (simWrite v b).devices.map (fun d => d.rom) = b.devices.map (fun d => d.rom) := by
  unfold simWrite
  split
  · split_ifs <;> rfl
  · exact simStore_rom _ _ _ _
  · rfl

theorem simReadBytes_bus (count : Nat) (b : SimBus) : (simReadBytes count b).2 = b := rfl

theorem simReadBit_bus (b : SimBus) : (simReadBit b).2 = b := rfl

theorem simOw_searchContract : SearchContract simOw simPending where
  reset := fun _ => rfl
  select := fun _ _ => rfl
  write := fun v _ b => by
    show simPending (simWrite v b) = simPending b
    rw [simPending_eq, simPending_eq, simWrite_cursor, simWrite_roms]
  read_bytes := fun _ count b => by
    show simPending (simReadBytes count b).2 = simPending b
    rw [simReadBytes_bus]
  read_bit := fun b => by
    show simPending (simReadBit b).2 = simPending b
    rw [simReadBit_bus]
  search_next := fun buf b a rest h => by
    show (simSearch buf b).1 ≠ 0 ∧ (simSearch buf b).2.1 = a ∧
      simPending (simSearch buf b).2.2 = rest
    unfold simPending at h
    have hlt : b.cursor < b.devices.length := by
      by_contra hge
      rw [List.drop_eq_nil_of_le (by omega)] at h
      simp at h
    rw [List.drop_eq_getElem_cons hlt] at h
    simp only [List.map_cons, List.cons.injEq] at h
    have hget : b.devices.get? b.cursor = some b.devices[b.cursor] := by
      simp [List.getElem?_eq_getElem hlt]
    unfold simSearch
    rw [hget]
    exact ⟨by simp, h.1, h.2⟩
  search_done := fun buf b h => by
    show (simSearch buf b).1 = 0 ∧ simPending (simSearch buf b).2.2 = []
    have hge : b.devices.length ≤ b.cursor := by
      unfold simPending at h
      simpa using h
    have hget : b.devices.get? b.cursor = none := by
      simp [List.getElem?_eq_none hge]
    unfold simSearch
    rw [hget]
    exact ⟨rfl, h⟩

/-- Witness for C3: a simulated bus whose search yields one corrupted and two
valid addresses. -/
theorem begin_counts_valid_addresses_witness :
    simPending (simOw.reset_search
        (construct (simBus [simDevice romBad 0x1F, simDevice romB 0x7F,
          simDevice romC 0x3F])).bus) = [romBad, romB, romC] ∧
      ∃ s', begin simOw 4 (construct (simBus [simDevice romBad 0x1F, simDevice romB 0x7F,
          simDevice romC 0x3F])) = some s' ∧
        s'._devices = ([romBad, romB, romC].filter validAddress).length :=
  ⟨rfl, begin_counts_valid_addresses simOw simPending simOw_searchContract
    (construct (simBus [simDevice romBad 0x1F, simDevice romB 0x7F, simDevice romC 0x3F]))
    [romBad, romB, romC] rfl (by decide) 4 (by decide)⟩

/-! ## C4: `getAddress` against the enumeration order -/

/-- C4: on a bus whose search yields a corrupted address followed by two valid
ones, `begin` counts two devices, yet `getAddress(0)` fails (the buffer holds the
corrupted address), `getAddress(1)` yields the first valid address and the second
valid address is only reached at index 2: `depth` counts every address found. -/
theorem getAddress_counts_corrupted_addresses :
    (begin simOw 8 (construct (simBus [simDevice romBad 0x1F, simDevice romB 0x7F,
        simDevice romC 0x3F]))).map (fun s => s._devices) = some 2 ∧
      (getAddress simOw 8 uninitAddress 0 (simBus [simDevice romBad 0x1F,
        simDevice romB 0x7F, simDevice romC 0x3F])).map (fun r => (r.1, r.2.1))
        = some (false, romBad) ∧
      (getAddress simOw 8 uninitAddress 1 (simBus [simDevice romBad 0x1F,
        simDevice romB 0x7F, simDevice romC 0x3F])).map (fun r => (r.1, r.2.1))
        = some (true, romB) ∧
      (getAddress simOw 8 uninitAddress 2 (simBus [simDevice romBad 0x1F,
        simDevice romB 0x7F, simDevice romC 0x3F])).map (fun r => (r.1, r.2.1))
        = some (true, romC) := by
  decide!

/-! ## C5: what `begin` replaces and what it keeps -/

theorem le_MAX_left (a b : Nat) : a ≤ MAX a b := by
  unfold MAX
  split_ifs <;> omega

theorem le_MAX_right (a b : Nat) : b ≤ MAX a b := by
  unfold MAX
  split_ifs <;> omega

theorem MAX_eq_max (a b : Nat) : MAX a b = max a b := by
  unfold MAX
  split_ifs <;> omega

/-- The loop of `begin` never clears the parasite flag and never lowers the
bus-wide resolution. -/
theorem beginLoop_keeps (ow : OnewireInterface β) :
    ∀ (fuel : Nat) (buf : List Nat) (s s' : Dallas β), beginLoop ow fuel buf s = some s' →
      (s._parasite = true → s'._parasite = true) ∧ s._bitResolution ≤ s'._bitResolution := by
  intro fuel
  induction fuel with
  | zero => intro buf s s' h; simp [beginLoop] at h
  | succ f ih =>
    intro buf s s' h
    simp only [beginLoop] at h
    by_cases h1 : ((ow.search buf s.bus).1 != 0) = true
    · rw [if_pos h1] at h
      by_cases h2 : validAddress (ow.search buf s.bus).2.1 = true
      · rw [if_pos h2] at h
        obtain ⟨hp, hr⟩ := ih _ _ _ h
        refine ⟨fun hs => hp ?_, le_trans (le_MAX_left _ _) hr⟩
        simp [hs]
      · rw [if_neg h2] at h
        have k := ih _ _ _ h
        exact k
    · rw [if_neg h1] at h
      simp only [Option.some.injEq] at h
      subst h
      exact ⟨fun hs => hs, le_refl _⟩

/-- C5 as stated fails: over the same one-device bus, `begin` from a fresh session
gives parasite flag off and resolution 9, while `begin` from a session that held
parasite power and 12 bits keeps both. -/
theorem begin_keeps_earlier_aggregates :
    (begin simOw 4 (construct (simBus [simDevice romA 0x1F]))).map
        (fun s => (s._devices, s._parasite, s._bitResolution)) = some (1, false, 9) ∧
      (begin simOw 4 { construct (simBus [simDevice romA 0x1F]) with
          _devices := 5, _parasite := true, _bitResolution := 12 }).map
        (fun s => (s._devices, s._parasite, s._bitResolution)) = some (1, true, 12) := by
  decide!

/-- C5, amended: on a bus obeying the search contract, `begin` run from any two
prior session states over the same bus terminates with the same device count; the
parasite flag and the bus-wide resolution are carried over, not replaced: a flag
that was set stays set and the resolution is at least its earlier value. -/
theorem begin_replaces_device_count (ow : OnewireInterface β)
    (pending : β → List (List Nat)) (hc : SearchContract ow pending) (s1 s2 : Dallas β)
    (hbus : s1.bus = s2.bus) (fuel : Nat)
    (hfuel : (pending (ow.reset_search s1.bus)).length < fuel) :
    ∃ s1' s2', begin ow fuel s1 = some s1' ∧ begin ow fuel s2 = some s2' ∧
      s1'._devices = s2'._devices ∧
      (s1._parasite = true → s1'._parasite = true) ∧
      s1._bitResolution ≤ s1'._bitResolution ∧
      (s2._parasite = true → s2'._parasite = true) ∧
      s2._bitResolution ≤ s2'._bitResolution := by
  obtain ⟨s1', h1, d1⟩ := beginLoop_devices hc _ fuel uninitAddress
    { s1 with bus := ow.reset_search s1.bus, _devices := 0 } rfl hfuel (by simp)
  obtain ⟨s2', h2, d2⟩ := beginLoop_devices hc _ fuel uninitAddress
    { s2 with bus := ow.reset_search s2.bus, _devices := 0 } rfl
    (by rw [← hbus]; exact hfuel) (by simp)
  have k1 := beginLoop_keeps ow _ _ _ _ h1
  have k2 := beginLoop_keeps ow _ _ _ _ h2
  refine ⟨s1', s2', h1, h2, ?_, k1.1, k1.2, k2.1, k2.2⟩
  rw [d1, d2]
  simp only [hbus]

/-- Witness for C5 amended: two different prior states over one simulated bus. -/
theorem begin_replaces_device_count_witness :
    ∃ s1' s2',
      begin simOw 4 (construct (simBus [simDevice romA 0x1F])) = some s1' ∧
      begin simOw 4 { construct (simBus [simDevice romA 0x1F]) with
          _devices := 5, _parasite := true, _bitResolution := 12 } = some s2' ∧
      s1'._devices = s2'._devices ∧
      ((construct (simBus [simDevice romA 0x1F]))._parasite = true →
        s1'._parasite = true) ∧
      9 ≤ s1'._bitResolution ∧
      (true = true → s2'._parasite = true) ∧
      12 ≤ s2'._bitResolution :=
  begin_replaces_device_count simOw simPending simOw_searchContract
    (construct (simBus [simDevice romA 0x1F]))
    { construct (simBus [simDevice romA 0x1F]) with
      _devices := 5, _parasite := true, _bitResolution := 12 } rfl 4 (by decide)

/-! ## The driver's transactions on the simulated bus -/

theorem sim_readScratchPad (a sp : List Nat) (b : SimBus) :
    readScratchPad simOw a sp b =
      if b.devices = [] then (false, sp, { b with phase := SimPhase.idle })
      else (true, simAnswer b.devices a 9, { b with phase := SimPhase.idle }) := by
  unfold readScratchPad
  by_cases h : b.devices = []
  · simp [simOw, h]
  · simp [simOw, h, simWrite, simReadBytes]

theorem sim_readPowerSupply_bus (a : List Nat) (b : SimBus) :
    (readPowerSupply simOw a b).2 = { b with phase := SimPhase.idle } := by
  simp [readPowerSupply, simOw, simWrite, simReadBit]

theorem sim_getResolution_bus (a : List Nat) (b : SimBus) :
    (getResolution simOw a b).2 =
      if a.getD 0 0 == DS18S20MODEL then b else { b with phase := SimPhase.idle } := by
  rw [getResolution_bus, sim_readScratchPad]
  split_ifs <;> rfl

theorem sim_getResolution_devices (a : List Nat) (b : SimBus) :
    (getResolution simOw a b).2.devices = b.devices ∧
      (getResolution simOw a b).2.cursor = b.cursor := by
  rw [sim_getResolution_bus]
  split_ifs <;> exact ⟨rfl, rfl⟩

/-- What a simulated device reports depends on the device registers only, not on
the search cursor or the transaction phase. -/
theorem sim_getResolution_val (a : List Nat) (b b' : SimBus)
    (h : b.devices = b'.devices) :
    (getResolution simOw a b).1 = (getResolution simOw a b').1 := by
  unfold getResolution isConnected
  rw [sim_readScratchPad, sim_readScratchPad, h]
  by_cases h0 : (a.getD 0 0 == DS18S20MODEL) = true
  · simp only [h0, if_true]
  · simp only [h0]
    by_cases h1 : b'.devices = []
    · simp [h1]
    · simp only [h1, if_false]
      split_ifs <;> rfl

/-! ## C6: the bus-wide resolution after `begin` -/

theorem sim_search_cons (buf : List Nat) (b : SimBus) (d : SimDevice)
    (rest : List SimDevice) (h : b.devices.drop b.cursor = d :: rest) :
    simOw.search buf b = (1, d.rom, { b with cursor := b.cursor + 1 }) ∧
      b.devices.drop (b.cursor + 1) = rest := by
  have hlt : b.cursor < b.devices.length := by
    by_contra hge
    rw [List.drop_eq_nil_of_le (by omega)] at h
    simp at h
  rw [List.drop_eq_getElem_cons hlt] at h
  simp only [List.cons.injEq] at h
  have hget : b.devices.get? b.cursor = some d := by
    simp [List.getElem?_eq_getElem hlt, h.1]
  refine ⟨?_, h.2⟩
  show simSearch buf b = _
  unfold simSearch
  rw [hget]

theorem sim_search_nil (buf : List Nat) (b : SimBus) (h : b.devices.drop b.cursor = []) :
    simOw.search buf b = (0, buf, b) := by
  have hget : b.devices.get? b.cursor = none := by
    simp [List.getElem?_eq_none (List.drop_eq_nil_iff.mp h)]
  show simSearch buf b = _
  unfold simSearch
  rw [hget]

/-- On the simulated bus the loop of `begin` folds `MAX` over what the CRC-valid
devices still ahead of the cursor report. -/
theorem sim_beginLoop_resolution (ds : List SimDevice) (rest : List SimDevice) :
    ∀ (fuel : Nat) (buf : List Nat) (s : Dallas SimBus), s.bus.devices = ds →
      ds.drop s.bus.cursor = rest → rest.length < fuel →
      ∃ s', beginLoop simOw fuel buf s = some s' ∧
        s'._bitResolution =
          (rest.filter (fun d => validAddress d.rom)).foldl
            (fun acc d => MAX acc (getResolution simOw d.rom (simBus ds)).1)
            s._bitResolution := by
  induction rest with
  | nil =>
    intro fuel buf s hds hdrop hfuel
    obtain ⟨f, rfl⟩ : ∃ f, fuel = f + 1 := ⟨fuel - 1, by simp at hfuel; omega⟩
    have hs := sim_search_nil buf s.bus (by rw [hds]; exact hdrop)
    exact ⟨{ s with bus := s.bus }, by simp [beginLoop, hs], rfl⟩
  | cons d rest ih =>
    intro fuel buf s hds hdrop hfuel
    obtain ⟨f, rfl⟩ : ∃ f, fuel = f + 1 := ⟨fuel - 1, by simp at hfuel; omega⟩
    have hf : rest.length < f := by simp at hfuel; omega
    obtain ⟨hs, hnext⟩ := sim_search_cons buf s.bus d rest (by rw [hds]; exact hdrop)
    by_cases hv : validAddress d.rom = true
    · let b1 : SimBus := { s.bus with cursor := s.bus.cursor + 1 }
      let p := if (!s._parasite) = true then readPowerSupply simOw d.rom b1 else (false, b1)
      let g := getResolution simOw d.rom p.2
      have hp : p.2.devices = ds ∧ p.2.cursor = s.bus.cursor + 1 := by
        show (if (!s._parasite) = true then readPowerSupply simOw d.rom b1
          else (false, b1)).2.devices = ds ∧
          (if (!s._parasite) = true then readPowerSupply simOw d.rom b1
          else (false, b1)).2.cursor = s.bus.cursor + 1
        split_ifs
        · rw [sim_readPowerSupply_bus]; exact ⟨hds, rfl⟩
        · exact ⟨hds, rfl⟩
      have hg := sim_getResolution_devices d.rom p.2
      have hval : g.1 = (getResolution simOw d.rom (simBus ds)).1 :=
        sim_getResolution_val d.rom p.2 (simBus ds) hp.1
      obtain ⟨s', hs', hr'⟩ := ih f d.rom
        { s with
          _parasite := if (!s._parasite && p.1) = true then true else s._parasite
          _bitResolution := MAX s._bitResolution g.1
          _devices := (s._devices + 1) % 256
          bus := g.2 }
        (by show g.2.devices = ds; rw [hg.1]; exact hp.1)
        (by show ds.drop g.2.cursor = rest; rw [hg.2, hp.2, ← hds]; exact hnext) hf
      refine ⟨s', ?_, ?_⟩
      · rw [← hs']
        simp [beginLoop, hs, hv, p, g, b1]
      · rw [hr']
        simp only [List.filter_cons, hv, if_true, List.foldl_cons]
        rw [hval]
    · obtain ⟨s', hs', hr'⟩ := ih f d.rom
        { s with bus := { s.bus with cursor := s.bus.cursor + 1 } } hds
        (by rw [← hds]; exact hnext) hf
      refine ⟨s', ?_, ?_⟩
      · rw [← hs']
        simp [beginLoop, hs, hv]
      · rw [hr']
        simp [List.filter_cons, hv]

theorem foldl_MAX_eq_foldl_max (l : List Nat) (a : Nat) :
    l.foldl MAX a = l.foldl max a := by
  induction l generalizing a with
  | nil => rfl
  | cons x xs ih => simp only [List.foldl_cons, MAX_eq_max, ih]

theorem foldl_max_ge (l : List Nat) (a : Nat) : a ≤ l.foldl max a := by
  induction l generalizing a with
  | nil => exact le_refl _
  | cons x xs ih => exact le_trans (le_max_left a x) (ih _)

/-- Starting the fold at 9 instead of 0 changes nothing once some element is at
least 9. -/
theorem foldl_max_start (l : List Nat) (a : Nat) (hne : l ≠ []) (hl : ∀ x ∈ l, a ≤ x) :
    l.foldl max a = l.foldl max 0 := by
  cases l with
  | nil => exact absurd rfl hne
  | cons x xs =>
    have hx := hl x (List.mem_cons_self _ _)
    simp only [List.foldl_cons]
    rw [max_eq_right hx, Nat.zero_max]

/-- C6: from a freshly constructed session, `begin` over a simulated bus with at
least one CRC-valid device, each CRC-valid device reporting a resolution in
9..12, terminates with the bus-wide resolution equal to the maximum of the
reported resolutions; for devices reporting 9, 12 and 10 it is 12. -/
theorem begin_resolution_is_maximum (b : SimBus) (fuel : Nat)
    (hne : ∃ d ∈ b.devices, validAddress d.rom = true)
    (hres : ∀ d ∈ b.devices, validAddress d.rom = true →
      9 ≤ (getResolution simOw d.rom b).1 ∧ (getResolution simOw d.rom b).1 ≤ 12)
    (hfuel : b.devices.length < fuel) :
    (∃ s', begin simOw fuel (construct b) = some s' ∧
      s'._bitResolution =
        (((b.devices.filter (fun d => validAddress d.rom)).map
          (fun d => (getResolution simOw d.rom b).1)).foldl max 0)) ∧
    (begin simOw 4 (construct (simBus [simDevice romA TEMP_9_BIT,
      simDevice romB TEMP_12_BIT, simDevice romC TEMP_10_BIT]))).map
        (fun s => s._bitResolution) = some 12 := by
  refine ⟨?_, by decide!⟩
  obtain ⟨s', hs', hr'⟩ := sim_beginLoop_resolution b.devices b.devices fuel uninitAddress
    { construct b with bus := simOw.reset_search b, _devices := 0 } rfl rfl hfuel
  refine ⟨s', hs', ?_⟩
  rw [hr']
  have hval : ∀ d : SimDevice, (getResolution simOw d.rom (simBus b.devices)).1
      = (getResolution simOw d.rom b).1 :=
    fun d => sim_getResolution_val d.rom (simBus b.devices) b rfl
  simp only [hval]
  rw [← List.foldl_map (fun d : SimDevice => (getResolution simOw d.rom b).1) MAX,
    foldl_MAX_eq_foldl_max]
  apply foldl_max_start
  · obtain ⟨d, hd, hv⟩ := hne
    intro hnil
    have hmem : d ∈ b.devices.filter (fun d => validAddress d.rom) :=
      List.mem_filter.mpr ⟨hd, hv⟩
    have := List.map_eq_nil_iff.mp hnil
    rw [this] at hmem
    simp at hmem
  · intro x hx
    obtain ⟨d, hd, rfl⟩ := List.mem_map.mp hx
    obtain ⟨hd1, hd2⟩ := List.mem_filter.mp hd
    exact (hres d hd1 hd2).1

/-- Witness for C6: three simulated devices reporting 9, 12 and 10 bits. -/
theorem begin_resolution_is_maximum_witness :
    (∃ s', begin simOw 4 (construct (simBus [simDevice romA TEMP_9_BIT,
        simDevice romB TEMP_12_BIT, simDevice romC TEMP_10_BIT])) = some s' ∧
      s'._bitResolution = 12) ∧
    (begin simOw 4 (construct (simBus [simDevice romA TEMP_9_BIT,
      simDevice romB TEMP_12_BIT, simDevice romC TEMP_10_BIT]))).map
        (fun s => s._bitResolution) = some 12 := by
  obtain ⟨⟨s', h1, h2⟩, h3⟩ := begin_resolution_is_maximum
    (simBus [simDevice romA TEMP_9_BIT, simDevice romB TEMP_12_BIT,
      simDevice romC TEMP_10_BIT]) 4
    ⟨simDevice romA TEMP_9_BIT, by decide, by decide!⟩ (by decide!) (by decide)
  exact ⟨⟨s', h1, h2.trans (by decide!)⟩, h3⟩

/-! ## C7: per-device `getResolution` -/

/-- C7: on every transport and address, `getResolution` answers 12 for a legacy
(0x10) address without any bus transaction (the bus state, and the log of a
recording transport, are returned untouched); for any other address it answers
12, 11, 10 or 9 for configuration byte 0x7F, 0x5F, 0x3F or 0x1F and 0 for any
other byte when the scratchpad read succeeds with byte 8 equal to `crc8` of bytes
0..7, and 0 when the read fails or the CRC differs; the answer is always one of
0, 9, 10, 11, 12. -/
theorem getResolution_cases (ow : OnewireInterface β) (a : List Nat) (bus : β) :
    (a.getD 0 0 = 0x10 →
      getResolution ow a bus = (12, bus) ∧
      ∀ log, getResolution (traced ow) a (bus, log) = (12, (bus, log))) ∧
    (a.getD 0 0 ≠ 0x10 →
      (getResolution ow a bus).1 =
        if (readScratchPad ow a uninitScratchPad bus).1 = true ∧
            crc8 (readScratchPad ow a uninitScratchPad bus).2.1 8 =
              (readScratchPad ow a uninitScratchPad bus).2.1.getD 8 0 then
          (if (readScratchPad ow a uninitScratchPad bus).2.1.getD 4 0 = 0x7F then 12
           else if (readScratchPad ow a uninitScratchPad bus).2.1.getD 4 0 = 0x5F then 11
           else if (readScratchPad ow a uninitScratchPad bus).2.1.getD 4 0 = 0x3F then 10
           else if (readScratchPad ow a uninitScratchPad bus).2.1.getD 4 0 = 0x1F then 9
           else 0)
        else 0) ∧
    ((getResolution ow a bus).1 = 0 ∨ (getResolution ow a bus).1 = 9 ∨
      (getResolution ow a bus).1 = 10 ∨ (getResolution ow a bus).1 = 11 ∨
      (getResolution ow a bus).1 = 12) := by
  refine ⟨fun h => ?_, fun h => ?_, ?_⟩
  · have h' : (a.getD 0 0 == DS18S20MODEL) = true := by rw [h]; rfl
    refine ⟨?_, fun log => ?_⟩
    · unfold getResolution
      rw [if_pos h']
    · unfold getResolution
      rw [if_pos h']
  · have h' : ¬ (a.getD 0 0 == DS18S20MODEL) = true := by simpa using h
    unfold getResolution isConnected
    rw [if_neg h']
    simp only [beq_iff_eq, Bool.and_eq_true]
    split_ifs <;> rfl
  · unfold getResolution
    dsimp only
    split_ifs <;> simp

/-- Witness for C7: a legacy address on an empty simulated bus, and a DS18B20 set
to 11 bits. -/
theorem getResolution_cases_witness :
    getResolution simOw romLegacy (simBus []) = (12, simBus []) ∧
      (getResolution simOw romB (simBus [simDevice romB TEMP_11_BIT])).1 = 11 :=
  ⟨((getResolution_cases simOw romLegacy (simBus [])).1 (by decide)).1,
    ((getResolution_cases simOw romB (simBus [simDevice romB TEMP_11_BIT])).2.1
      (by decide)).trans (by decide!)⟩

/-! ## C8: resolution round trip on the simulated bus -/

theorem crc8Loop_append (l m : List Nat) (len r : Nat) (h : len ≤ l.length) :
    crc8Loop (l ++ m) len r = crc8Loop l len r := by
  induction l generalizing len r with
  | nil =>
    have : len = 0 := by simpa using h
    subst this
    cases m <;> rfl
  | cons b rest ih =>
    cases len with
    | zero => rfl
    | succ n =>
      simp only [List.cons_append, crc8Loop]
      exact ih n _ (by simpa using h)

theorem getResolution_eq (ow : OnewireInterface β) (a : List Nat) (bus : β) :
    getResolution ow a bus =
      if a.getD 0 0 == DS18S20MODEL then (12, bus)
      else if (isConnected ow a uninitScratchPad bus).1 then
        (configResolution ((isConnected ow a uninitScratchPad bus).2.1.getD CONFIGURATION 0),
          (isConnected ow a uninitScratchPad bus).2.2)
      else (0, (isConnected ow a uninitScratchPad bus).2.2) := by
  unfold getResolution configResolution
  dsimp only
  split_ifs <;> rfl

theorem clampResolution_range (r : Nat) : 9 ≤ clampResolution r ∧ clampResolution r ≤ 12 := by
  unfold clampResolution
  split_ifs <;> omega

theorem configResolution_resolutionConfig (r : Nat) (h9 : 9 ≤ r) (h12 : r ≤ 12) :
    configResolution (resolutionConfig r) = r := by
  have : r = 9 ∨ r = 10 ∨ r = 11 ∨ r = 12 := by omega
  rcases this with h | h | h | h <;> subst h <;> decide

theorem configResolution_eq_iff (cfg r : Nat) (h9 : 9 ≤ r)
    (h : configResolution cfg = r) : cfg = resolutionConfig r := by
  unfold configResolution at h
  split_ifs at h with h1 h2 h3 h4
  · subst h; simpa using h1
  · subst h; simpa using h2
  · subst h; simpa using h3
  · subst h; simpa using h4
  · omega

theorem sim_isConnected_device (a sp : List Nat) (b : SimBus) (d : SimDevice)
    (hdev : simFind b.devices a = some d) (hlen : d.scratch.length = 8) :
    isConnected simOw a sp b = (true, simScratchPad d, { b with phase := SimPhase.idle }) := by
  have hne : b.devices ≠ [] := by
    intro h
    rw [h] at hdev
    simp [simFind] at hdev
  have hans : simAnswer b.devices a 9 = simScratchPad d := by
    unfold simAnswer
    rw [hdev]
    apply List.take_of_length_le
    simp [simScratchPad, hlen]
  have hcrc : (crc8 (simScratchPad d) 8 == (simScratchPad d).getD SCRATCHPAD_CRC 0) = true := by
    have h1 : crc8 (simScratchPad d) 8 = crc8 d.scratch 8 :=
      crc8Loop_append d.scratch _ 8 0 (by omega)
    have h2 : (simScratchPad d).getD SCRATCHPAD_CRC 0 = crc8 d.scratch 8 := by
      unfold simScratchPad
      rw [List.getD_append_right _ _ _ _ (by rw [hlen])]
      simp [hlen]
    rw [h1, h2]
    exact beq_self_eq_true _
  unfold isConnected
  rw [sim_readScratchPad, if_neg hne, hans]
  simp only [hcrc, Bool.and_self]

theorem sim_getResolution_device (a : List Nat) (b : SimBus) (d : SimDevice)
    (hfam : a.getD 0 0 ≠ 0x10) (hdev : simFind b.devices a = some d)
    (hlen : d.scratch.length = 8) :
    getResolution simOw a b =
      (configResolution (d.scratch.getD CONFIGURATION 0), { b with phase := SimPhase.idle }) := by
  have h' : ¬ (a.getD 0 0 == DS18S20MODEL) = true := by simpa using hfam
  rw [getResolution_eq, if_neg h', sim_isConnected_device a _ b d hdev hlen]
  simp only [if_true]
  congr 2
  unfold simScratchPad
  rw [List.getD_append _ _ _ _ (by rw [hlen]; decide)]

theorem sim_writeScratchPad (a sp : List Nat) (b : SimBus) (hfam : a.getD 0 0 ≠ 0x10) :
    writeScratchPad simOw a sp b =
      { devices := simStore (simStore (simStore b.devices a 0 (sp.getD HIGH_ALARM_TEMP 0))
          a 1 (sp.getD LOW_ALARM_TEMP 0)) a 2 (sp.getD CONFIGURATION 0),
        cursor := b.cursor, phase := SimPhase.idle } := by
  have h' : (a.getD 0 0 != DS18S20MODEL) = true := by simpa using hfam
  unfold writeScratchPad
  simp only [h', if_true]
  simp [simOw, simWrite]

theorem simFind_simStore (devices : List SimDevice) (a : List Nat) (count v : Nat)
    (d : SimDevice) (hdev : simFind devices a = some d)
    (hc : (count < 2 || (count == 2 && a.getD 0 0 != DS18S20MODEL)) = true) :
    simFind (simStore devices a count v) a =
      some { d with scratch := d.scratch.set (HIGH_ALARM_TEMP + count) v } := by
  have hrom : (d.rom == a) = true := by
    unfold simFind at hdev
    exact @List.find?_some _ (fun d : SimDevice => d.rom == a) d devices hdev
  unfold simFind simStore
  rw [List.find?_map]
  have hcomp : ((fun d : SimDevice => d.rom == a) ∘ fun d : SimDevice =>
      if (d.rom == a && (decide (count < 2) || (count == 2 && a.getD 0 0 != DS18S20MODEL)))
          = true then
        { d with scratch := d.scratch.set (HIGH_ALARM_TEMP + count) v }
      else d) = fun d : SimDevice => d.rom == a := by
    funext x
    simp only [Function.comp]
    split_ifs <;> rfl
  rw [hcomp]
  unfold simFind at hdev
  rw [hdev]
  simp only [Option.map_some', hrom, Bool.true_and]
  rw [if_pos hc]

/-- After a scratchpad write the addressed device holds the bytes it was sent. -/
theorem simFind_after_write (a sp : List Nat) (b : SimBus) (d : SimDevice)
    (hfam : a.getD 0 0 ≠ 0x10) (hdev : simFind b.devices a = some d) :
    simFind (writeScratchPad simOw a sp b).devices a =
      some { d with
        scratch := ((d.scratch.set 2 (sp.getD HIGH_ALARM_TEMP 0)).set 3
                      (sp.getD LOW_ALARM_TEMP 0)).set 4 (sp.getD CONFIGURATION 0) } := by
  have h' : (a.getD 0 0 != DS18S20MODEL) = true := by simpa using hfam
  rw [sim_writeScratchPad a sp b hfam]
  have h0 := simFind_simStore b.devices a 0 (sp.getD HIGH_ALARM_TEMP 0) d hdev (by simp)
  have h1 := simFind_simStore _ a 1 (sp.getD LOW_ALARM_TEMP 0) _ h0 (by simp)
  have h2 := simFind_simStore _ a 2 (sp.getD CONFIGURATION 0) _ h1 (by rw [h']; decide)
  exact h2

theorem sim_getAddressLoop (index : Nat) :
    ∀ (fuel depth : Nat) (buf : List Nat) (b : SimBus),
      b.devices.length - b.cursor < fuel →
      ∃ r, getAddressLoop simOw index fuel depth buf b = some r ∧
        r.2.2.devices = b.devices := by
  intro fuel
  induction fuel with
  | zero => intro depth buf b h; omega
  | succ f ih =>
    intro depth buf b h
    simp only [getAddressLoop]
    by_cases hd : depth ≤ index
    · rw [if_pos hd]
      cases hrest : b.devices.drop b.cursor with
      | nil =>
        rw [sim_search_nil buf b hrest]
        exact ⟨_, rfl, rfl⟩
      | cons d rest =>
        obtain ⟨hs, _⟩ := sim_search_cons buf b d rest hrest
        rw [hs]
        have hlt : b.cursor < b.devices.length := by
          by_contra hge
          rw [List.drop_eq_nil_of_le (by omega)] at hrest
          simp at hrest
        have h10 : ((1 : Nat) != 0) = true := by decide
        simp only [h10, if_true]
        split_ifs
        · exact ⟨_, rfl, rfl⟩
        · exact ih _ _ { b with cursor := b.cursor + 1 } (by simp; omega)
    · rw [if_neg hd]
      exact ⟨_, rfl, rfl⟩

theorem sim_getAddress (fuel : Nat) (buf : List Nat) (index : Nat) (b : SimBus)
    (hfuel : b.devices.length < fuel) :
    ∃ r, getAddress simOw fuel buf index b = some r ∧ r.2.2.devices = b.devices := by
  unfold getAddress
  exact sim_getAddressLoop index fuel 0 buf (simOw.reset_search b)
    (by show b.devices.length - 0 < fuel; omega)

theorem sim_recalcLoop (fuel : Nat) :
    ∀ (left i : Nat) (buf : List Nat) (r : Nat) (b : SimBus), b.devices.length < fuel →
      ∃ res, recalcLoop simOw fuel left i buf r b = some res ∧
        res.2.devices = b.devices := by
  intro left
  induction left with
  | zero => intro i buf r b _; exact ⟨_, rfl, rfl⟩
  | succ n ih =>
    intro i buf r b hfuel
    obtain ⟨ra, ha, hda⟩ := sim_getAddress fuel buf i b hfuel
    simp only [recalcLoop, ha]
    have hg := (sim_getResolution_devices ra.2.1 ra.2.2).1
    obtain ⟨res, hres, hdres⟩ := ih (i + 1) ra.2.1
      (MAX r (getResolution simOw ra.2.1 ra.2.2).1)
      (getResolution simOw ra.2.1 ra.2.2).2 (by rw [hg, hda]; exact hfuel)
    exact ⟨res, hres, by rw [hdres, hg, hda]⟩

/-- The per-device `setResolution`, read through `clampResolution` and
`resolutionConfig`. -/
theorem setResolution_eq (ow : OnewireInterface β) (fuel : Nat) (a : List Nat) (R : Nat)
    (skip : Bool) (s : Dallas β) :
    setResolution ow fuel a R skip s =
      if (getResolution ow a s.bus).1 = clampResolution R then
        some (true, { s with bus := (getResolution ow a s.bus).2 })
      else if (isConnected ow a uninitScratchPad (getResolution ow a s.bus).2).1 = true then
        if a.getD 0 0 ≠ 0x10 then
          if skip = false ∧ clampResolution R < MAX s._bitResolution (clampResolution R) then
            (recalcLoop ow fuel s._devices 0 uninitAddress (clampResolution R)
              (writeScratchPad ow a
                ((isConnected ow a uninitScratchPad (getResolution ow a s.bus).2).2.1.set
                  CONFIGURATION (resolutionConfig (clampResolution R)))
                (isConnected ow a uninitScratchPad (getResolution ow a s.bus).2).2.2)).map
              (fun r => (true, { s with _bitResolution := r.1, bus := r.2 }))
          else
            some (true, { s with
              _bitResolution := MAX s._bitResolution (clampResolution R)
              bus := writeScratchPad ow a
                ((isConnected ow a uninitScratchPad (getResolution ow a s.bus).2).2.1.set
                  CONFIGURATION (resolutionConfig (clampResolution R)))
                (isConnected ow a uninitScratchPad (getResolution ow a s.bus).2).2.2 })
        else
          some (true, { s with
            bus := (isConnected ow a uninitScratchPad (getResolution ow a s.bus).2).2.2 })
      else
        some (false, { s with
          bus := (isConnected ow a uninitScratchPad (getResolution ow a s.bus).2).2.2 }) := by
  have hc : (if R < 9 then 9 else if R > 12 then 12 else R) = clampResolution R := rfl
  have hr : ∀ x : Nat, (if (x == 12) = true then TEMP_12_BIT
      else if (x == 11) = true then TEMP_11_BIT
      else if (x == 10) = true then TEMP_10_BIT else TEMP_9_BIT) = resolutionConfig x :=
    fun _ => rfl
  unfold setResolution
  simp only [hc, hr]
  by_cases h1 : (getResolution ow a s.bus).1 = clampResolution R
  · rw [if_pos h1, if_pos (by simpa using h1)]
  · rw [if_neg h1, if_neg (by simpa using h1)]
    by_cases h2 : (isConnected ow a uninitScratchPad (getResolution ow a s.bus).2).1 = true
    · rw [if_pos h2, if_pos h2]
      by_cases h3 : a.getD 0 0 ≠ 0x10
      · rw [if_pos h3, if_pos (by simpa using h3)]
        by_cases h4 : skip = false ∧ clampResolution R < MAX s._bitResolution (clampResolution R)
        · rw [if_pos h4, if_pos (by simpa using h4)]
          generalize recalcLoop ow fuel s._devices 0 uninitAddress (clampResolution R)
            (writeScratchPad ow a
              ((isConnected ow a uninitScratchPad (getResolution ow a s.bus).2).2.1.set
                CONFIGURATION (resolutionConfig (clampResolution R)))
              (isConnected ow a uninitScratchPad (getResolution ow a s.bus).2).2.2) = o
          cases o <;> rfl
        · rw [if_neg h4, if_neg (by simpa using h4)]
      · rw [if_neg h3, if_neg (by simpa using h3)]
    · rw [if_neg h2, if_neg h2]

/-- On the simulated bus, the per-device `setResolution` on a configurable device
succeeds and leaves the device holding the configuration byte of the clamped
request. -/
theorem sim_setResolution (s : Dallas SimBus) (a : List Nat) (d : SimDevice)
    (R fuel : Nat) (skip : Bool) (hfam : a.getD 0 0 ≠ 0x10)
    (hdev : simFind s.bus.devices a = some d) (hlen : d.scratch.length = 8)
    (hfuel : s.bus.devices.length < fuel) :
    ∃ s' d', setResolution simOw fuel a R skip s = some (true, s') ∧
      simFind s'.bus.devices a = some d' ∧ d'.scratch.length = 8 ∧
      d'.scratch.getD CONFIGURATION 0 = resolutionConfig (clampResolution R) ∧
      s'.bus.devices.length = s.bus.devices.length := by
  have hg := sim_getResolution_device a s.bus d hfam hdev hlen
  have hcon := sim_isConnected_device a uninitScratchPad
    { s.bus with phase := SimPhase.idle } d hdev hlen
  rw [setResolution_eq, hg]
  by_cases h1 : configResolution (d.scratch.getD CONFIGURATION 0) = clampResolution R
  · rw [if_pos h1]
    exact ⟨_, d, rfl, hdev, hlen,
      configResolution_eq_iff _ _ (clampResolution_range R).1 h1, rfl⟩
  · rw [if_neg h1, hcon]
    simp only [if_true]
    rw [if_pos hfam]
    have hsp : ((simScratchPad d).set CONFIGURATION
        (resolutionConfig (clampResolution R))).getD CONFIGURATION 0
        = resolutionConfig (clampResolution R) := by
      simp only [List.getD_eq_getElem?_getD]
      rw [List.getElem?_set_self (by simp [simScratchPad, hlen, CONFIGURATION])]
      rfl
    have hw := simFind_after_write a
      ((simScratchPad d).set CONFIGURATION (resolutionConfig (clampResolution R)))
      { devices := s.bus.devices, cursor := s.bus.cursor, phase := SimPhase.idle } d hfam hdev
    rw [hsp] at hw
    have hwlen : (writeScratchPad simOw a
        ((simScratchPad d).set CONFIGURATION (resolutionConfig (clampResolution R)))
        { devices := s.bus.devices, cursor := s.bus.cursor,
          phase := SimPhase.idle }).devices.length = s.bus.devices.length := by
      rw [sim_writeScratchPad _ _ _ hfam]
      simp only [simStore_length]
    have hd'len : (((d.scratch.set 2 (((simScratchPad d).set CONFIGURATION
        (resolutionConfig (clampResolution R))).getD HIGH_ALARM_TEMP 0)).set 3
        (((simScratchPad d).set CONFIGURATION
        (resolutionConfig (clampResolution R))).getD LOW_ALARM_TEMP 0)).set 4
        (resolutionConfig (clampResolution R))).length = 8 := by
      simp only [List.length_set, hlen]
    have hd'cfg : (((d.scratch.set 2 (((simScratchPad d).set CONFIGURATION
        (resolutionConfig (clampResolution R))).getD HIGH_ALARM_TEMP 0)).set 3
        (((simScratchPad d).set CONFIGURATION
        (resolutionConfig (clampResolution R))).getD LOW_ALARM_TEMP 0)).set 4
        (resolutionConfig (clampResolution R))).getD CONFIGURATION 0
        = resolutionConfig (clampResolution R) := by
      simp only [List.getD_eq_getElem?_getD]
      rw [List.getElem?_set_self (by simp only [List.length_set, hlen]; decide)]
      rfl
    by_cases h4 : skip = false ∧ clampResolution R < MAX s._bitResolution (clampResolution R)
    · rw [if_pos h4]
      obtain ⟨res, hres, hdres⟩ := sim_recalcLoop fuel s._devices 0 uninitAddress
        (clampResolution R) _ (by rw [hwlen]; exact hfuel)
      rw [hres]
      have hw' := hw
      rw [← hdres] at hw'
      refine ⟨_, _, rfl, hw', hd'len, hd'cfg, ?_⟩
      show res.2.devices.length = _
      rw [hdres, hwlen]
    · rw [if_neg h4]
      exact ⟨_, _, rfl, hw, hd'len, hd'cfg, hwlen⟩

/-- C8: on the simulated bus, for a connected configurable device (family code
other than 0x10, answering with its eight scratchpad bytes and their CRC) and
every requested value `R`, `setResolution(addr, R)` returns true and a following
`getResolution(addr)` returns `R` clamped into 9..12. -/
theorem setResolution_then_getResolution (s : Dallas SimBus) (a : List Nat)
    (d : SimDevice) (R fuel : Nat) (skip : Bool) (hfam : a.getD 0 0 ≠ 0x10)
    (hdev : simFind s.bus.devices a = some d) (hlen : d.scratch.length = 8)
    (hfuel : s.bus.devices.length < fuel) :
    ∃ s', setResolution simOw fuel a R skip s = some (true, s') ∧
      (getResolution simOw a s'.bus).1 =
        (if R < 9 then 9 else if R > 12 then 12 else R) := by
  obtain ⟨s', d', hs', hd', hl', hc', _⟩ :=
    sim_setResolution s a d R fuel skip hfam hdev hlen hfuel
  refine ⟨s', hs', ?_⟩
  rw [sim_getResolution_device a s'.bus d' hfam hd' hl', hc']
  exact configResolution_resolutionConfig _ (clampResolution_range R).1
    (clampResolution_range R).2

/-- Witness for C8: a DS18B20 at 12 bits asked for 10 bits, on a bus of two. -/
theorem setResolution_then_getResolution_witness :
    ∃ s', setResolution simOw 3 romB 10 false
        (construct (simBus [simDevice romA 0x3F, simDevice romB 0x7F])) = some (true, s') ∧
      (getResolution simOw romB s'.bus).1 = 10 :=
  setResolution_then_getResolution
    (construct (simBus [simDevice romA 0x3F, simDevice romB 0x7F])) romB
    (simDevice romB 0x7F) 10 3 false (by decide) (by decide) (by decide) (by decide)

/-! ## C9: out-of-range requests -/

/-- C9 as stated fails: asked for 13 bits, a DS18B20 at 9 bits is sent the
configuration byte 0x7F (12 bits), not 0x1F; the log shows the write-scratchpad
transaction with its three data bytes. -/
theorem setResolution_above_range_writes_12_bit :
    (setResolution (traced simOw) 3 romB 13 false
        (construct (simBus [simDevice romB TEMP_9_BIT], []))).map
      (fun r => (r.1, r.2.bus.2, r.2.bus.1.devices)) =
    some (true,
      [BusOp.reset, BusOp.select romB, BusOp.write READSCRATCH 0, BusOp.read_bytes 9,
        BusOp.reset,
        BusOp.reset, BusOp.select romB, BusOp.write READSCRATCH 0, BusOp.read_bytes 9,
        BusOp.reset,
        BusOp.reset, BusOp.select romB, BusOp.write WRITESCRATCH 0, BusOp.write 0x4B 0,
        BusOp.write 0x46 0, BusOp.write 0x7F 0, BusOp.reset],
      [simDevice romB TEMP_12_BIT]) := by
  decide!

/-- C9, amended: on the simulated bus, after `setResolution` with a requested value
outside 9..12 a connected configurable device holds the configuration byte 0x1F
(9 bits) when the request was below 9 and 0x7F (12 bits) when it was above 12. -/
theorem setResolution_out_of_range_config (s : Dallas SimBus) (a : List Nat)
    (d : SimDevice) (R fuel : Nat) (skip : Bool) (hfam : a.getD 0 0 ≠ 0x10)
    (hdev : simFind s.bus.devices a = some d) (hlen : d.scratch.length = 8)
    (hfuel : s.bus.devices.length < fuel) (hR : R < 9 ∨ 12 < R) :
    ∃ s' d', setResolution simOw fuel a R skip s = some (true, s') ∧
      simFind s'.bus.devices a = some d' ∧
      d'.scratch.getD CONFIGURATION 0 = (if R < 9 then 0x1F else 0x7F) := by
  obtain ⟨s', d', hs', hd', _, hc', _⟩ :=
    sim_setResolution s a d R fuel skip hfam hdev hlen hfuel
  refine ⟨s', d', hs', hd', ?_⟩
  rw [hc']
  unfold clampResolution
  rcases hR with h | h
  · rw [if_pos h, if_pos h]; rfl
  · rw [if_neg (by omega), if_pos h, if_neg (by omega)]; rfl

/-- Witness for C9 amended: a request of 200 bits to a DS18B20 at 10 bits. -/
theorem setResolution_out_of_range_config_witness :
    ∃ s' d', setResolution simOw 2 romB 200 false
        (construct (simBus [simDevice romB TEMP_10_BIT])) = some (true, s') ∧
      simFind s'.bus.devices romB = some d' ∧
      d'.scratch.getD CONFIGURATION 0 = (if 200 < 9 then 0x1F else 0x7F) :=
  setResolution_out_of_range_config (construct (simBus [simDevice romB TEMP_10_BIT])) romB
    (simDevice romB TEMP_10_BIT) 200 2 false (by decide) (by decide) (by decide) (by decide)
    (by decide)

/-! ## C10: what the result of the per-device `setResolution` tells -/

theorem traced_readScratchPad_log (ow : OnewireInterface β) (a sp : List Nat)
    (bl : β × List BusOp) :
    BusOp.write WRITESCRATCH 0 ∈ (readScratchPad (traced ow) a sp bl).2.2.2 ↔
      BusOp.write WRITESCRATCH 0 ∈ bl.2 := by
  rw [readScratchPad_bus]
  split_ifs <;> simp [traced]

theorem traced_getResolution_log (ow : OnewireInterface β) (a : List Nat)
    (bl : β × List BusOp) :
    BusOp.write WRITESCRATCH 0 ∈ (getResolution (traced ow) a bl).2.2 ↔
      BusOp.write WRITESCRATCH 0 ∈ bl.2 := by
  rw [getResolution_bus]
  split_ifs
  · rfl
  · exact traced_readScratchPad_log ow a _ bl

theorem traced_writeScratchPad_log (ow : OnewireInterface β) (a sp : List Nat)
    (bl : β × List BusOp) :
    BusOp.write WRITESCRATCH 0 ∈ (writeScratchPad (traced ow) a sp bl).2 := by
  unfold writeScratchPad
  dsimp only
  split_ifs <;> simp [traced]

/-- For an index below 255 the loop of `getAddress` ends within `index + 1` steps
on every transport, and it never issues a write-scratchpad command. -/
theorem traced_getAddressLoop (ow : OnewireInterface β) (index : Nat) (hidx : index < 255) :
    ∀ (fuel depth : Nat) (buf : List Nat) (bl : β × List BusOp),
      index + 1 - depth < fuel →
      ∃ r, getAddressLoop (traced ow) index fuel depth buf bl = some r ∧
        (BusOp.write WRITESCRATCH 0 ∈ r.2.2.2 ↔ BusOp.write WRITESCRATCH 0 ∈ bl.2) := by
  intro fuel
  induction fuel with
  | zero => intro depth buf bl h; omega
  | succ f ih =>
    intro depth buf bl h
    have hs : BusOp.write WRITESCRATCH 0 ∈ ((traced ow).search buf bl).2.2.2 ↔
        BusOp.write WRITESCRATCH 0 ∈ bl.2 := by
      simp [traced]
    simp only [getAddressLoop]
    by_cases hd : depth ≤ index
    · rw [if_pos hd]
      by_cases h1 : (((traced ow).search buf bl).1 != 0) = true
      · rw [if_pos h1]
        by_cases h2 : (depth == index &&
            validAddress ((traced ow).search buf bl).2.1) = true
        · rw [if_pos h2]
          exact ⟨_, rfl, hs⟩
        · rw [if_neg h2]
          have hmod : (depth + 1) % 256 = depth + 1 := Nat.mod_eq_of_lt (by omega)
          rw [hmod]
          obtain ⟨r, hr, hl⟩ := ih (depth + 1) ((traced ow).search buf bl).2.1
            ((traced ow).search buf bl).2.2 (by omega)
          exact ⟨r, hr, hl.trans hs⟩
      · rw [if_neg h1]
        exact ⟨_, rfl, hs⟩
    · rw [if_neg hd]
      exact ⟨_, rfl, Iff.rfl⟩

theorem traced_getAddress (ow : OnewireInterface β) (fuel : Nat) (buf : List Nat)
    (index : Nat) (bl : β × List BusOp) (hidx : index < 255) (hfuel : 256 ≤ fuel) :
    ∃ r, getAddress (traced ow) fuel buf index bl = some r ∧
      (BusOp.write WRITESCRATCH 0 ∈ r.2.2.2 ↔ BusOp.write WRITESCRATCH 0 ∈ bl.2) := by
  unfold getAddress
  obtain ⟨r, hr, hl⟩ := traced_getAddressLoop ow index hidx fuel 0 buf
    ((traced ow).reset_search bl) (by omega)
  refine ⟨r, hr, hl.trans ?_⟩
  simp [traced]

/-- With a device count that fits a `uint8_t` the recalculation loop ends on
every transport, and it never issues a write-scratchpad command. -/
theorem traced_recalcLoop (ow : OnewireInterface β) (fuel : Nat) (hfuel : 256 ≤ fuel) :
    ∀ (left i : Nat) (buf : List Nat) (r : Nat) (bl : β × List BusOp), i + left ≤ 255 →
      ∃ res, recalcLoop (traced ow) fuel left i buf r bl = some res ∧
        (BusOp.write WRITESCRATCH 0 ∈ res.2.2 ↔ BusOp.write WRITESCRATCH 0 ∈ bl.2) := by
  intro left
  induction left with
  | zero => intro i buf r bl _; exact ⟨_, rfl, Iff.rfl⟩
  | succ n ih =>
    intro i buf r bl hi
    obtain ⟨ra, ha, hla⟩ := traced_getAddress ow fuel buf i bl (by omega) hfuel
    simp only [recalcLoop, ha]
    obtain ⟨res, hres, hlres⟩ := ih (i + 1) ra.2.1
      (MAX r (getResolution (traced ow) ra.2.1 ra.2.2).1)
      (getResolution (traced ow) ra.2.1 ra.2.2).2 (by omega)
    exact ⟨res, hres, hlres.trans ((traced_getResolution_log ow _ _).trans hla)⟩

/-- C10 as stated fails: a DS18B20 already at 12 bits, asked for 12 bits, makes
`setResolution` return true although the only transaction on the bus is one
scratchpad read; no write-scratchpad command is issued and nothing is stored. -/
theorem setResolution_true_without_write :
    (setResolution (traced simOw) 3 romB 12 false
        (construct (simBus [simDevice romB TEMP_12_BIT], []))).map
      (fun r => (r.1, r.2.bus.2, decide (BusOp.write WRITESCRATCH 0 ∈ r.2.bus.2))) =
    some (true,
      [BusOp.reset, BusOp.select romB, BusOp.write READSCRATCH 0, BusOp.read_bytes 9,
        BusOp.reset],
      false) := by
  decide!

/-- C10, amended: for a configurable (non-legacy) address, on every transport, with
a device count that fits a `uint8_t`, the per-device `setResolution` terminates;
it returns true exactly when the device already reports the clamped request or
its scratchpad reads back CRC-valid, and false otherwise; and it issues a
write-scratchpad command exactly when the device reports a different resolution
and its scratchpad reads back CRC-valid. A write therefore implies the result
true, but the result is also true, without a write, when the device already has
the requested resolution. -/
theorem setResolution_result (ow : OnewireInterface β) (fuel : Nat) (a : List Nat)
    (R : Nat) (skip : Bool) (s : Dallas (β × List BusOp)) (hfam : a.getD 0 0 ≠ 0x10)
    (hdev : s._devices < 256) (hfuel : 256 ≤ fuel)
    (hlog : BusOp.write WRITESCRATCH 0 ∉ s.bus.2) :
    ∃ res s', setResolution (traced ow) fuel a R skip s = some (res, s') ∧
      (res = true ↔
        (getResolution (traced ow) a s.bus).1 = clampResolution R ∨
        (isConnected (traced ow) a uninitScratchPad
          (getResolution (traced ow) a s.bus).2).1 = true) ∧
      (BusOp.write WRITESCRATCH 0 ∈ s'.bus.2 ↔
        (getResolution (traced ow) a s.bus).1 ≠ clampResolution R ∧
        (isConnected (traced ow) a uninitScratchPad
          (getResolution (traced ow) a s.bus).2).1 = true) := by
  have hg : BusOp.write WRITESCRATCH 0 ∉ (getResolution (traced ow) a s.bus).2.2 :=
    fun h => hlog ((traced_getResolution_log ow a s.bus).mp h)
  have hc : BusOp.write WRITESCRATCH 0 ∉ (isConnected (traced ow) a uninitScratchPad
      (getResolution (traced ow) a s.bus).2).2.2.2 :=
    fun h => hg ((traced_readScratchPad_log ow a _ _).mp h)
  rw [setResolution_eq]
  by_cases h1 : (getResolution (traced ow) a s.bus).1 = clampResolution R
  · rw [if_pos h1]
    refine ⟨_, _, rfl, ?_, ?_⟩
    · simp [h1]
    · constructor
      · intro h; exact absurd h hg
      · intro h; exact absurd h1 h.1
  · rw [if_neg h1]
    by_cases h2 : (isConnected (traced ow) a uninitScratchPad
        (getResolution (traced ow) a s.bus).2).1 = true
    · rw [if_pos h2, if_pos hfam]
      have hw := traced_writeScratchPad_log ow a
        ((isConnected (traced ow) a uninitScratchPad
          (getResolution (traced ow) a s.bus).2).2.1.set CONFIGURATION
            (resolutionConfig (clampResolution R)))
        (isConnected (traced ow) a uninitScratchPad (getResolution (traced ow) a s.bus).2).2.2
      by_cases h4 : skip = false ∧ clampResolution R < MAX s._bitResolution (clampResolution R)
      · rw [if_pos h4]
        obtain ⟨res, hres, hlres⟩ := traced_recalcLoop ow fuel hfuel s._devices 0
          uninitAddress (clampResolution R) _ (by omega)
        rw [hres]
        refine ⟨_, _, rfl, ?_, ?_⟩
        · simp [h2]
        · constructor
          · intro _; exact ⟨h1, h2⟩
          · intro _; exact hlres.mpr hw
      · rw [if_neg h4]
        refine ⟨_, _, rfl, ?_, ?_⟩
        · simp [h2]
        · constructor
          · intro _; exact ⟨h1, h2⟩
          · intro _; exact hw
    · rw [if_neg h2]
      refine ⟨_, _, rfl, ?_, ?_⟩
      · simp [h1, h2]
      · constructor
        · intro h; exact absurd h hc
        · intro h; exact absurd h.2 h2

/-- Witness for C10 amended: the recording simulated bus with one DS18B20 at 12
bits, asked for 12 bits. -/
theorem setResolution_result_witness :
    ∃ res s', setResolution (traced simOw) 256 romB 12 false
        (construct (simBus [simDevice romB TEMP_12_BIT], [])) = some (res, s') ∧
      (res = true ↔
        (getResolution (traced simOw) romB (simBus [simDevice romB TEMP_12_BIT], [])).1
          = clampResolution 12 ∨
        (isConnected (traced simOw) romB uninitScratchPad
          (getResolution (traced simOw) romB
            (simBus [simDevice romB TEMP_12_BIT], [])).2).1 = true) ∧
      (BusOp.write WRITESCRATCH 0 ∈ s'.bus.2 ↔
        (getResolution (traced simOw) romB (simBus [simDevice romB TEMP_12_BIT], [])).1
          ≠ clampResolution 12 ∧
        (isConnected (traced simOw) romB uninitScratchPad
          (getResolution (traced simOw) romB
            (simBus [simDevice romB TEMP_12_BIT], [])).2).1 = true) :=
  setResolution_result simOw 256 romB 12 false
    (construct (simBus [simDevice romB TEMP_12_BIT], [])) (by decide) (by decide)
    (by decide) (by decide)

/-! ## C11, C12: calls of the per-device `setResolution` that store nothing -/

theorem traced_readScratchPad_no_write (ow : OnewireInterface β) (a sp : List Nat)
    (bl : β × List BusOp) (p : Nat) :
    BusOp.write WRITESCRATCH p ∈ (readScratchPad (traced ow) a sp bl).2.2.2 →
      BusOp.write WRITESCRATCH p ∈ bl.2 := by
  rw [readScratchPad_bus]
  split_ifs <;> simp [traced]

theorem traced_getResolution_no_write (ow : OnewireInterface β) (a : List Nat)
    (bl : β × List BusOp) (p : Nat) :
    BusOp.write WRITESCRATCH p ∈ (getResolution (traced ow) a bl).2.2 →
      BusOp.write WRITESCRATCH p ∈ bl.2 := by
  rw [getResolution_bus]
  split_ifs
  · exact id
  · exact traced_readScratchPad_no_write ow a _ bl p

/-- C11: when `getResolution(addr)` already equals the requested value clamped into
9..12, the per-device `setResolution` returns true on every transport, for every
skip flag; the recording transport sees no write of the byte 0x4E beyond those
already logged, and device count, parasite flag, bus-wide resolution and both
behaviour flags are unchanged. -/
theorem setResolution_idempotent (ow : OnewireInterface β) (fuel : Nat) (a : List Nat)
    (R : Nat) (skip : Bool) (s : Dallas (β × List BusOp))
    (h : (getResolution (traced ow) a s.bus).1 = (if R < 9 then 9 else if R > 12 then 12 else R)) :
    ∃ s', setResolution (traced ow) fuel a R skip s = some (true, s') ∧
      (∀ p, BusOp.write 0x4E p ∈ s'.bus.2 → BusOp.write 0x4E p ∈ s.bus.2) ∧
      s'._devices = s._devices ∧ s'._parasite = s._parasite ∧
      s'._bitResolution = s._bitResolution ∧
      s'._waitForConversion = s._waitForConversion ∧
      s'._checkForConversion = s._checkForConversion := by
  have h' : (getResolution (traced ow) a s.bus).1 = clampResolution R := h
  rw [setResolution_eq, if_pos h']
  exact ⟨_, rfl, fun p hp => traced_getResolution_no_write ow a s.bus p hp,
    rfl, rfl, rfl, rfl, rfl⟩

/-- Witness for C11: a DS18B20 at 11 bits asked for 11 bits. -/
theorem setResolution_idempotent_witness :
    ∃ s', setResolution (traced simOw) 2 romB 11 false
        (construct (simBus [simDevice romB TEMP_11_BIT], [])) = some (true, s') ∧
      (∀ p, BusOp.write 0x4E p ∈ s'.bus.2 → BusOp.write 0x4E p ∈ ([] : List BusOp)) ∧
      s'._devices = 0 ∧ s'._parasite = false ∧ s'._bitResolution = 9 ∧
      s'._waitForConversion = true ∧ s'._checkForConversion = true :=
  setResolution_idempotent simOw 2 romB 11 false
    (construct (simBus [simDevice romB TEMP_11_BIT], [])) (by decide!)

/-- C12: for a legacy-family address (byte 0 = 0x10) whose scratchpad reads back
CRC-valid, the per-device `setResolution` returns true for every requested value
and skip flag on every transport, writes no byte 0x4E and leaves the bus-wide
resolution unchanged. -/
theorem setResolution_legacy (ow : OnewireInterface β) (fuel : Nat) (a : List Nat)
    (R : Nat) (skip : Bool) (s : Dallas (β × List BusOp)) (hfam : a.getD 0 0 = 0x10)
    (hcrc : (isConnected (traced ow) a uninitScratchPad s.bus).1 = true) :
    ∃ s', setResolution (traced ow) fuel a R skip s = some (true, s') ∧
      (∀ p, BusOp.write 0x4E p ∈ s'.bus.2 → BusOp.write 0x4E p ∈ s.bus.2) ∧
      s'._bitResolution = s._bitResolution := by
  have hfam' : (a.getD 0 0 == DS18S20MODEL) = true := by rw [hfam]; rfl
  have hg : getResolution (traced ow) a s.bus = (12, s.bus) := by
    unfold getResolution
    rw [if_pos hfam']
  rw [setResolution_eq, hg]
  by_cases h1 : 12 = clampResolution R
  · rw [if_pos h1]
    exact ⟨_, rfl, fun _ hp => hp, rfl⟩
  · rw [if_neg h1, if_pos hcrc, if_neg (by simpa using hfam)]
    exact ⟨_, rfl, fun p hp => traced_readScratchPad_no_write ow a _ s.bus p hp, rfl⟩

/-- Witness for C12: a DS18S20 on the simulated bus asked for 9 bits. -/
theorem setResolution_legacy_witness :
    ∃ s', setResolution (traced simOw) 2 romLegacy 9 false
        (construct (simBus [simDevice romLegacy 0xFF], [])) = some (true, s') ∧
      (∀ p, BusOp.write 0x4E p ∈ s'.bus.2 → BusOp.write 0x4E p ∈ ([] : List BusOp)) ∧
      s'._bitResolution = 9 :=
  setResolution_legacy simOw 2 romLegacy 9 false
    (construct (simBus [simDevice romLegacy 0xFF], [])) (by decide) (by decide!)

/-! ## C15: the skip flag -/

/-- C15: with recalculation skipped the per-device `setResolution` terminates on
every transport, from every session state, for every address and requested
value, and the bus-wide resolution afterwards is at least what it was before. -/
theorem setResolution_skip_never_lowers (ow : OnewireInterface β) (fuel : Nat)
    (a : List Nat) (R : Nat) (s : Dallas β) :
    ∃ res s', setResolution ow fuel a R true s = some (res, s') ∧
      s._bitResolution ≤ s'._bitResolution := by
  rw [setResolution_eq]
  split_ifs with h1 h2 h3 h4
  · exact ⟨_, _, rfl, le_refl _⟩
  · exact absurd h4.1 (by decide)
  · exact ⟨_, _, rfl, le_MAX_left _ _⟩
  · exact ⟨_, _, rfl, le_refl _⟩
  · exact ⟨_, _, rfl, le_refl _⟩

/-! ## C13: the bus-wide resolution after a per-device change -/

/-- For an index below 255 the loop of `getAddress` ends within `index + 1` steps
on every transport. -/
theorem getAddressLoop_terminates (ow : OnewireInterface β) (index : Nat)
    (hidx : index < 255) :
    ∀ (fuel depth : Nat) (buf : List Nat) (bus : β), index + 1 - depth < fuel →
      ∃ r, getAddressLoop ow index fuel depth buf bus = some r := by
  intro fuel
  induction fuel with
  | zero => intro depth buf bus h; omega
  | succ f ih =>
    intro depth buf bus h
    simp only [getAddressLoop]
    by_cases hd : depth ≤ index
    · rw [if_pos hd]
      by_cases h1 : ((ow.search buf bus).1 != 0) = true
      · rw [if_pos h1]
        by_cases h2 : (depth == index && validAddress (ow.search buf bus).2.1) = true
        · rw [if_pos h2]
          exact ⟨_, rfl⟩
        · rw [if_neg h2]
          have hmod : (depth + 1) % 256 = depth + 1 := Nat.mod_eq_of_lt (by omega)
          rw [hmod]
          exact ih (depth + 1) _ _ (by omega)
      · rw [if_neg h1]
        exact ⟨_, rfl⟩
    · rw [if_neg hd]
      exact ⟨_, rfl⟩

/-- With a device count that fits a `uint8_t` the recalculation loop ends on
every transport, and what it yields is at least the value it started from. -/
theorem recalcLoop_ge (ow : OnewireInterface β) (fuel : Nat) (hfuel : 256 ≤ fuel) :
    ∀ (left i : Nat) (buf : List Nat) (r : Nat) (bus : β), i + left ≤ 255 →
      ∃ res, recalcLoop ow fuel left i buf r bus = some res ∧ r ≤ res.1 := by
  intro left
  induction left with
  | zero => intro i buf r bus _; exact ⟨_, rfl, le_refl _⟩
  | succ n ih =>
    intro i buf r bus hi
    obtain ⟨ra, ha⟩ := getAddressLoop_terminates ow i (by omega) fuel 0 buf
      (ow.reset_search bus) (by omega)
    have ha' : getAddress ow fuel buf i bus = some ra := ha
    simp only [recalcLoop, ha']
    obtain ⟨res, hres, hge⟩ := ih (i + 1) ra.2.1
      (MAX r (getResolution ow ra.2.1 ra.2.2).1) (getResolution ow ra.2.1 ra.2.2).2 (by omega)
    exact ⟨res, hres, le_trans (le_MAX_left _ _) hge⟩

/-- C13 as stated fails: on a freshly constructed session (bus-wide resolution 9) a
DS18B20 that already reports 12 bits makes `setResolution(addr, 12)` return true
through the early return, and the bus-wide resolution stays 9, below the
request. -/
theorem setResolution_true_below_request :
    (setResolution simOw 2 romB 12 false
        (construct (simBus [simDevice romB TEMP_12_BIT]))).map
      (fun r => (r.1, r.2._bitResolution)) = some (true, 9) ∧
    (setResolution simOw 2 romB 12 true
        (construct (simBus [simDevice romB TEMP_12_BIT]))).map
      (fun r => (r.1, r.2._bitResolution)) = some (true, 9) := by
  decide!

/-- C13, amended: for a configurable address, on every transport, from every
session state whose device count fits a `uint8_t` and for either skip flag, the
per-device `setResolution` terminates; when the device reports a resolution other
than the clamped request and the call returns true (the device is connected and
was written), the bus-wide resolution afterwards is at least the clamped request;
when the device already reports the clamped request the bus-wide resolution is
left as it was. -/
theorem setResolution_raises_bus_resolution (ow : OnewireInterface β) (fuel : Nat)
    (a : List Nat) (R : Nat) (skip : Bool) (s : Dallas β) (hfam : a.getD 0 0 ≠ 0x10)
    (hdev : s._devices < 256) (hfuel : 256 ≤ fuel) :
    ∃ res s', setResolution ow fuel a R skip s = some (res, s') ∧
      ((getResolution ow a s.bus).1 ≠ clampResolution R → res = true →
        clampResolution R ≤ s'._bitResolution) ∧
      ((getResolution ow a s.bus).1 = clampResolution R →
        res = true ∧ s'._bitResolution = s._bitResolution) := by
  rw [setResolution_eq]
  by_cases h1 : (getResolution ow a s.bus).1 = clampResolution R
  · rw [if_pos h1]
    exact ⟨_, _, rfl, fun h => absurd h1 h, fun _ => ⟨rfl, rfl⟩⟩
  · rw [if_neg h1]
    by_cases h2 : (isConnected ow a uninitScratchPad (getResolution ow a s.bus).2).1 = true
    · rw [if_pos h2, if_pos hfam]
      by_cases h4 : skip = false ∧ clampResolution R < MAX s._bitResolution (clampResolution R)
      · rw [if_pos h4]
        obtain ⟨res, hres, hge⟩ := recalcLoop_ge ow fuel hfuel s._devices 0 uninitAddress
          (clampResolution R)
          (writeScratchPad ow a
            ((isConnected ow a uninitScratchPad (getResolution ow a s.bus).2).2.1.set
              CONFIGURATION (resolutionConfig (clampResolution R)))
            (isConnected ow a uninitScratchPad (getResolution ow a s.bus).2).2.2) (by omega)
        rw [hres]
        exact ⟨_, _, rfl, fun _ _ => hge, fun h => absurd h h1⟩
      · rw [if_neg h4]
        exact ⟨_, _, rfl, fun _ _ => le_MAX_right _ _, fun h => absurd h h1⟩
    · rw [if_neg h2]
      refine ⟨_, _, rfl, fun _ h => ?_, fun h => absurd h h1⟩
      exact absurd h (by decide)

/-- Witness for C13 amended: lowering a DS18B20 from 12 to 10 bits. -/
theorem setResolution_raises_bus_resolution_witness :
    ∃ res s', setResolution simOw 256 romB 10 false
        (construct (simBus [simDevice romB TEMP_12_BIT])) = some (res, s') ∧
      ((getResolution simOw romB (simBus [simDevice romB TEMP_12_BIT])).1
          ≠ clampResolution 10 → res = true → clampResolution 10 ≤ s'._bitResolution) ∧
      ((getResolution simOw romB (simBus [simDevice romB TEMP_12_BIT])).1
          = clampResolution 10 → res = true ∧ s'._bitResolution = 9) :=
  setResolution_raises_bus_resolution simOw 256 romB 10 false
    (construct (simBus [simDevice romB TEMP_12_BIT])) (by decide) (by decide) (by decide)

/-! ## C17, C18: the scratchpad transactions -/

/-- C17 as stated fails: when the first reset reports presence and the trailing
reset reports none, `readScratchPad` selects, sends 0xBE, reads 9 bytes, resets,
and returns false. -/
theorem readScratchPad_fails_on_trailing_reset :
    readScratchPad (traced scriptOw) romB uninitScratchPad ([1, 0], []) =
      (false, List.replicate 9 0xFF, [],
        [BusOp.reset, BusOp.select romB, BusOp.write 0xBE 0, BusOp.read_bytes 9,
          BusOp.reset]) := by
  decide!

/-- C17, amended: on every transport, when the initial reset reports no presence
`readScratchPad` returns false with the buffer untouched and nothing but that
reset on the bus; when it reports presence the bus sees exactly reset, select of
the address, write of 0xBE, a read of 9 bytes into the buffer and a second reset,
and the result is true exactly when that trailing reset reports 1. -/
theorem readScratchPad_operations (ow : OnewireInterface β) (a sp : List Nat) (b : β)
    (log : List BusOp) :
    ((ow.reset b).1 = 0 →
      readScratchPad (traced ow) a sp (b, log) =
        (false, sp, (ow.reset b).2, log ++ [BusOp.reset])) ∧
    ((ow.reset b).1 ≠ 0 →
      (readScratchPad (traced ow) a sp (b, log)).2.2.2 =
        log ++ [BusOp.reset, BusOp.select a, BusOp.write 0xBE 0, BusOp.read_bytes 9,
          BusOp.reset] ∧
      (readScratchPad (traced ow) a sp (b, log)).2.1 =
        (ow.read_bytes sp 9 (ow.write 0xBE 0 (ow.select a (ow.reset b).2))).1 ∧
      ((readScratchPad (traced ow) a sp (b, log)).1 = true ↔
        (ow.reset (ow.read_bytes sp 9
          (ow.write 0xBE 0 (ow.select a (ow.reset b).2))).2).1 = 1)) := by
  constructor
  · intro h
    unfold readScratchPad
    simp [traced, h]
  · intro h
    unfold readScratchPad
    simp [traced, h]

/-- Witness for C17 amended: an empty simulated bus (no presence) and a bus with
one device (presence at both resets). -/
theorem readScratchPad_operations_witness :
    readScratchPad (traced simOw) romB uninitScratchPad (simBus [], []) =
        (false, uninitScratchPad, (simOw.reset (simBus [])).2, [] ++ [BusOp.reset]) ∧
      (readScratchPad (traced simOw) romB uninitScratchPad
          (simBus [simDevice romB TEMP_12_BIT], [])).2.2.2 =
        [] ++ [BusOp.reset, BusOp.select romB, BusOp.write 0xBE 0, BusOp.read_bytes 9,
          BusOp.reset] :=
  ⟨(readScratchPad_operations simOw romB uninitScratchPad (simBus []) []).1 (by decide),
    ((readScratchPad_operations simOw romB uninitScratchPad
      (simBus [simDevice romB TEMP_12_BIT]) []).2 (by decide)).1⟩

/-- C18: on every transport, for every address and scratchpad, `writeScratchPad`
performs exactly reset, select of the address, write 0x4E, write of scratchpad
byte 2, write of scratchpad byte 3, a write of scratchpad byte 4 if and only if
address byte 0 is not 0x10, and reset; it reads nothing, and it acts on the bus
alone, as on the unrecorded transport. -/
theorem writeScratchPad_operations (ow : OnewireInterface β) (a sp : List Nat) (b : β)
    (log : List BusOp) :
    writeScratchPad (traced ow) a sp (b, log) =
      (writeScratchPad ow a sp b,
        log ++ [BusOp.reset, BusOp.select a, BusOp.write 0x4E 0,
            BusOp.write (sp.getD 2 0) 0, BusOp.write (sp.getD 3 0) 0] ++
          (if a.getD 0 0 ≠ 0x10 then [BusOp.write (sp.getD 4 0) 0] else []) ++
          [BusOp.reset]) := by
  unfold writeScratchPad
  by_cases h : a.getD 0 0 = 0x10
  · have h' : ¬ (a.getD 0 0 != DS18S20MODEL) = true := by rw [h]; decide
    simp only [h', if_false, h, ne_eq, not_true_eq_false]
    simp [traced]
  · have h' : (a.getD 0 0 != DS18S20MODEL) = true := by simpa using h
    simp only [h', if_true, ne_eq, h, not_false_eq_true]
    simp [traced]

/-! ## C16: the bus-wide `setResolution` -/

/-- C16: when the search yields a corrupted address before two valid DS18B20 at 12
bits, `begin` counts 2 devices and the bus-wide `setResolution(9)` stores 9 as
bus-wide resolution, yet it visits the addresses at search positions 0 and 1
only: the second valid device still reports 12 bits afterwards. Without the
corrupted address both devices report 9. -/
theorem setGlobalResolution_misses_device :
    ((begin simOw 8 (construct (simBus [simDevice romBad TEMP_12_BIT,
        simDevice romB TEMP_12_BIT, simDevice romC TEMP_12_BIT]))).bind
      (setGlobalResolution simOw 8 9)).map
        (fun s => (s._devices, s._bitResolution, (getResolution simOw romB s.bus).1,
          (getResolution simOw romC s.bus).1)) = some (2, 9, 9, 12) ∧
    ((begin simOw 8 (construct (simBus [simDevice romB TEMP_12_BIT,
        simDevice romC TEMP_12_BIT]))).bind
      (setGlobalResolution simOw 8 9)).map
        (fun s => (s._devices, s._bitResolution, (getResolution simOw romB s.bus).1,
          (getResolution simOw romC s.bus).1)) = some (2, 9, 9, 9) := by
  decide!

/-! ## C19, C20: conversion requests -/

theorem record_getResolution_events (ow : OnewireInterface β) (a : List Nat)
    (bl : β × List Event) :
    ∀ e ∈ (getResolution (recordOw ow) a bl).2.2, e ∈ bl.2 ∨
      e ∈ [Event.bus BusOp.reset, Event.bus (BusOp.select a),
        Event.bus (BusOp.write 0xBE 0), Event.bus (BusOp.read_bytes 9)] := by
  intro e
  rw [getResolution_bus, readScratchPad_bus]
  split_ifs
  · exact fun h => Or.inl h
  · simp only [recordOw, List.mem_append, List.mem_singleton, List.mem_cons]
    tauto
  · simp only [recordOw, List.mem_append, List.mem_singleton, List.mem_cons]
    tauto

/-- The polling loop puts nothing on record but ready-bit reads and clock
readings. -/
theorem blockLoop_events (ow : OnewireInterface β) (pf : Platform β) (delms now : Nat) :
    ∀ (fuel : Nat) (bl bl' : β × List Event),
      blockLoop (recordOw ow) (recordPf pf) delms now fuel bl = some bl' →
      ∃ evs, bl'.2 = bl.2 ++ evs ∧
        ∀ e ∈ evs, e = Event.uptime ∨ e = Event.bus BusOp.read_bit := by
  intro fuel
  induction fuel with
  | zero => intro bl bl' h; simp [blockLoop] at h
  | succ f ih =>
    intro bl bl' h
    simp only [blockLoop, isConversionComplete] at h
    by_cases hc : (!(((recordOw ow).read_bit bl).1 == 1)) = true
    · rw [if_pos hc] at h
      by_cases ht : (((recordPf pf).uptime_micros ((recordOw ow).read_bit bl).2).1 % 2 ^ 64
          + 2 ^ 64 - delms) % 2 ^ 64 < now
      · rw [if_pos ht] at h
        obtain ⟨evs, hl, he⟩ := ih _ _ h
        refine ⟨[Event.bus BusOp.read_bit, Event.uptime] ++ evs, ?_, ?_⟩
        · rw [hl]
          simp [recordOw, recordPf]
        · intro e hmem
          simp only [List.mem_append, List.mem_cons, List.mem_singleton,
            List.not_mem_nil, or_false] at hmem
          rcases hmem with (h1 | h1) | h1
          · exact Or.inr h1
          · exact Or.inl h1
          · exact he e h1
      · rw [if_neg ht] at h
        simp only [Option.some.injEq] at h
        subst h
        refine ⟨[Event.bus BusOp.read_bit, Event.uptime], ?_, ?_⟩
        · simp [recordOw, recordPf]
        · intro e hmem
          simp only [List.mem_cons, List.mem_singleton, List.not_mem_nil, or_false] at hmem
          rcases hmem with h1 | h1
          · exact Or.inr h1
          · exact Or.inl h1
    · rw [if_neg hc] at h
      simp only [Option.some.injEq] at h
      subst h
      refine ⟨[Event.bus BusOp.read_bit], ?_, ?_⟩
      · simp [recordOw]
      · intro e hmem
        simp only [List.mem_singleton] at hmem
        exact Or.inr hmem

/-- Whatever `blockTillConversionComplete` does is appended to the record. -/
theorem blockTillConversionComplete_events (ow : OnewireInterface β) (pf : Platform β)
    (fuel r : Nat) (s s' : Dallas (β × List Event))
    (h : blockTillConversionComplete (recordOw ow) (recordPf pf) fuel r s = some s') :
    ∃ evs, s'.bus.2 = s.bus.2 ++ evs := by
  unfold blockTillConversionComplete at h
  dsimp only at h
  split_ifs at h
  · cases hb : blockLoop (recordOw ow) (recordPf pf) (1000 * millisToWaitForConversion r)
        (((recordPf pf).uptime_micros s.bus).1 % 2 ^ 64) fuel
        ((recordPf pf).uptime_micros s.bus).2 with
    | none => rw [hb] at h; simp at h
    | some bl' =>
      rw [hb] at h
      simp only [Option.map_some', Option.some.injEq] at h
      subst h
      obtain ⟨evs, hl, _⟩ := blockLoop_events ow pf _ _ _ _ _ hb
      refine ⟨[Event.uptime] ++ evs, ?_⟩
      show bl'.2 = _
      rw [hl]
      simp [recordPf]
  · simp only [Option.some.injEq] at h
    subst h
    exact ⟨[Event.usleep (1000 * millisToWaitForConversion r)], by simp [recordPf]⟩

/-- C19: on every transport and platform, `requestTemperaturesByAddress` returns
false when `getResolution(addr)` is 0, having put on record nothing beyond the
scratchpad read of `getResolution` (no 0x44 command, no clock reading, no sleep,
no ready-bit poll); when `getResolution(addr)` is not 0 every result it returns
is true and comes after reset, select of the address and write of 0x44, and it
does return when it does not poll (wait flag off, or check flag off, or parasite
power). -/
theorem requestTemperaturesByAddress_result (ow : OnewireInterface β) (pf : Platform β)
    (fuel : Nat) (a : List Nat) (s : Dallas (β × List Event)) :
    ((getResolution (recordOw ow) a s.bus).1 = 0 →
      requestTemperaturesByAddress (recordOw ow) (recordPf pf) fuel a s =
        some (false, { s with bus := (getResolution (recordOw ow) a s.bus).2 }) ∧
      ∀ e ∈ (getResolution (recordOw ow) a s.bus).2.2, e ∈ s.bus.2 ∨
        e ∈ [Event.bus BusOp.reset, Event.bus (BusOp.select a),
          Event.bus (BusOp.write 0xBE 0), Event.bus (BusOp.read_bytes 9)]) ∧
    ((getResolution (recordOw ow) a s.bus).1 ≠ 0 →
      (∀ res s', requestTemperaturesByAddress (recordOw ow) (recordPf pf) fuel a s
          = some (res, s') →
        res = true ∧ ∃ evs, s'.bus.2 = (getResolution (recordOw ow) a s.bus).2.2 ++
          [Event.bus BusOp.reset, Event.bus (BusOp.select a),
            Event.bus (BusOp.write 0x44 (if s._parasite then 1 else 0))] ++ evs) ∧
      ((s._waitForConversion = false ∨ s._checkForConversion = false ∨
          s._parasite = true) →
        ∃ s', requestTemperaturesByAddress (recordOw ow) (recordPf pf) fuel a s
          = some (true, s'))) := by
  constructor
  · intro h0
    refine ⟨?_, record_getResolution_events ow a s.bus⟩
    unfold requestTemperaturesByAddress
    simp only [h0, beq_self_eq_true, if_true]
  · intro h0
    have h0' : ¬ ((getResolution (recordOw ow) a s.bus).1 == 0) = true := by simpa using h0
    constructor
    · intro res s' h
      unfold requestTemperaturesByAddress at h
      dsimp only at h
      rw [if_neg h0'] at h
      by_cases hw : (!s._waitForConversion) = true
      · rw [if_pos hw] at h
        simp only [Option.some.injEq, Prod.mk.injEq] at h
        obtain ⟨h1, h2⟩ := h
        subst h2
        exact ⟨h1.symm, [], by simp [recordOw]⟩
      · rw [if_neg hw, Option.map_eq_some'] at h
        obtain ⟨s'', hb, heq⟩ := h
        simp only [Prod.mk.injEq] at heq
        obtain ⟨h1, h2⟩ := heq
        subst h2
        obtain ⟨evs, hl⟩ := blockTillConversionComplete_events ow pf _ _ _ _ hb
        refine ⟨h1.symm, evs, ?_⟩
        rw [hl]
        simp [recordOw]
    · intro hsel
      unfold requestTemperaturesByAddress
      dsimp only
      rw [if_neg h0']
      by_cases hw : (!s._waitForConversion) = true
      · rw [if_pos hw]
        exact ⟨_, rfl⟩
      · have hwt : s._waitForConversion = true := by simpa using hw
        have hns : ¬ (s._checkForConversion && !s._parasite) = true := by
          rcases hsel with h | h | h
          · rw [hwt] at h; exact absurd h (by decide)
          · simp [h]
          · simp [h]
        rw [if_neg hw]
        unfold blockTillConversionComplete
        dsimp only
        rw [if_neg hns]
        exact ⟨_, rfl⟩

/-- Witness for C19: on the simulated bus and clock, a request to an address with
no device behind it, and a request to a DS18B20 from a session that sleeps. -/
theorem requestTemperaturesByAddress_result_witness :
    requestTemperaturesByAddress (recordOw (clockedOw simOw)) (recordPf (simPf 100)) 4 romA
        simSession =
      some (false, { simSession with
        bus := (getResolution (recordOw (clockedOw simOw)) romA simSession.bus).2 }) ∧
    ∃ s', requestTemperaturesByAddress (recordOw (clockedOw simOw)) (recordPf (simPf 100)) 4
        romB simSessionSleep = some (true, s') :=
  ⟨((requestTemperaturesByAddress_result (clockedOw simOw) (simPf 100) 4 romA
      simSession).1 (by decide!)).1,
    ((requestTemperaturesByAddress_result (clockedOw simOw) (simPf 100) 4 romB
      simSessionSleep).2 (by decide!)).2 (Or.inr (Or.inl rfl))⟩

/-- C20: with the wait flag set, on every transport and platform and from every
session state, `requestTemperatures` after reset, skip and write of 0x44 either
sleeps or polls: when the check flag is off or the parasite flag is on it
returns after exactly one sleep of 1000 times
`millisToWaitForConversion(bus-wide resolution)` microseconds and no ready-bit
read; otherwise every run that returns has put on record, after the command,
nothing but clock readings and ready-bit reads (no sleep), and it does return
after a single poll when the first ready bit read is 1. -/
theorem requestTemperatures_wait_strategy (ow : OnewireInterface β) (pf : Platform β)
    (fuel : Nat) (s : Dallas (β × List Event)) (hwait : s._waitForConversion = true) :
    ((s._checkForConversion = false ∨ s._parasite = true) →
      ∃ s', requestTemperatures (recordOw ow) (recordPf pf) fuel s = some s' ∧
        s'.bus.2 = s.bus.2 ++
          [Event.bus BusOp.reset, Event.bus BusOp.skip,
            Event.bus (BusOp.write 0x44 (if s._parasite then 1 else 0)),
            Event.usleep (1000 * millisToWaitForConversion s._bitResolution)]) ∧
    ((s._checkForConversion = true ∧ s._parasite = false) →
      (∀ s', requestTemperatures (recordOw ow) (recordPf pf) fuel s = some s' →
        ∃ evs, s'.bus.2 = s.bus.2 ++
            [Event.bus BusOp.reset, Event.bus BusOp.skip, Event.bus (BusOp.write 0x44 0)]
            ++ evs ∧
          ∀ e ∈ evs, e = Event.uptime ∨ e = Event.bus BusOp.read_bit) ∧
      ((ow.read_bit (pf.uptime_micros
          (ow.write 0x44 0 (ow.skip (ow.reset s.bus.1).2))).2).1 = 1 → 0 < fuel →
        ∃ s', requestTemperatures (recordOw ow) (recordPf pf) fuel s = some s' ∧
          s'.bus.2 = s.bus.2 ++
            [Event.bus BusOp.reset, Event.bus BusOp.skip, Event.bus (BusOp.write 0x44 0),
              Event.uptime, Event.bus BusOp.read_bit])) := by
  have hw : ¬ (!s._waitForConversion) = true := by simp [hwait]
  constructor
  · intro hsel
    have hns : ¬ (s._checkForConversion && !s._parasite) = true := by
      rcases hsel with h | h
      · simp [h]
      · simp [h]
    unfold requestTemperatures
    dsimp only
    rw [if_neg hw]
    unfold blockTillConversionComplete
    dsimp only
    rw [if_neg hns]
    exact ⟨_, rfl, by simp [recordOw, recordPf]⟩
  · intro hsel
    have hs : (s._checkForConversion && !s._parasite) = true := by simp [hsel.1, hsel.2]
    have hp : (if s._parasite = true then 1 else 0) = 0 := by simp [hsel.2]
    constructor
    · intro s' h
      unfold requestTemperatures at h
      dsimp only at h
      rw [if_neg hw] at h
      unfold blockTillConversionComplete at h
      dsimp only at h
      rw [if_pos hs, Option.map_eq_some'] at h
      obtain ⟨bl', hb, heq⟩ := h
      subst heq
      obtain ⟨evs, hl, he⟩ := blockLoop_events ow pf _ _ _ _ _ hb
      refine ⟨[Event.uptime] ++ evs, ?_, ?_⟩
      · show bl'.2 = _
        rw [hl]
        simp [recordOw, recordPf, hp]
      · intro e hmem
        simp only [List.mem_append, List.mem_singleton] at hmem
        rcases hmem with h1 | h1
        · exact Or.inl h1
        · exact he e h1
    · intro hready hfuel
      obtain ⟨f, rfl⟩ : ∃ f, fuel = f + 1 := ⟨fuel - 1, by omega⟩
      unfold requestTemperatures
      dsimp only
      rw [if_neg hw]
      unfold blockTillConversionComplete
      dsimp only
      rw [if_pos hs]
      simp only [blockLoop, isConversionComplete]
      have hc : ¬ (!(((recordOw ow).read_bit ((recordPf pf).uptime_micros
          ((recordOw ow).write STARTCONVO (if s._parasite = true then 1 else 0)
            ((recordOw ow).skip ((recordOw ow).reset s.bus).2))).2).1 == 1)) = true := by
        simp [recordOw, recordPf, hp, hready]
      rw [if_neg hc]
      exact ⟨_, rfl, by simp [recordOw, recordPf, hp]⟩

/-- Witness for C20: the simulated world, once sleeping and once polling. -/
theorem requestTemperatures_wait_strategy_witness :
    (∃ s', requestTemperatures (recordOw (clockedOw simOw)) (recordPf (simPf 100)) 4
        simSessionSleep = some s' ∧
      s'.bus.2 = simSessionSleep.bus.2 ++
        [Event.bus BusOp.reset, Event.bus BusOp.skip,
          Event.bus (BusOp.write 0x44 (if simSessionSleep._parasite then 1 else 0)),
          Event.usleep (1000 * millisToWaitForConversion simSessionSleep._bitResolution)]) ∧
    (∃ s', requestTemperatures (recordOw (clockedOw simOw)) (recordPf (simPf 100)) 4
        simSession = some s' ∧
      s'.bus.2 = simSession.bus.2 ++
        [Event.bus BusOp.reset, Event.bus BusOp.skip, Event.bus (BusOp.write 0x44 0),
          Event.uptime, Event.bus BusOp.read_bit]) :=
  ⟨(requestTemperatures_wait_strategy (clockedOw simOw) (simPf 100) 4 simSessionSleep
      rfl).1 (Or.inl rfl),
    ((requestTemperatures_wait_strategy (clockedOw simOw) (simPf 100) 4 simSession
      rfl).2 ⟨rfl, rfl⟩).2 (by decide) (by decide)⟩

/-! ## C14: recalculation after a lowering change -/

theorem sim_search_at (buf : List Nat) (b : SimBus) (d : SimDevice)
    (h : b.devices[b.cursor]? = some d) :
    simOw.search buf b = (1, d.rom, { b with cursor := b.cursor + 1 }) := by
  show simSearch buf b = _
  unfold simSearch
  rw [List.get?_eq_getElem?, h]

theorem sim_search_devices (buf : List Nat) (b : SimBus) :
    (simOw.search buf b).2.2.devices = b.devices := by
  show (simSearch buf b).2.2.devices = _
  unfold simSearch
  split <;> rfl

/-- On a simulated bus whose addresses all pass the CRC check, `getAddress` finds
the address at position `index` of the search order. -/
theorem sim_getAddressLoop_valid (index : Nat) (hidx : index < 255) :
    ∀ (k fuel depth : Nat) (buf : List Nat) (b : SimBus) (a : List Nat),
      b.cursor = depth → depth + k = index →
      (b.devices.map (fun d => d.rom))[index]? = some a →
      (∀ d ∈ b.devices, validAddress d.rom = true) → k < fuel →
      getAddressLoop simOw index fuel depth buf b =
        some (true, a, { b with cursor := index + 1 }) := by
  intro k
  induction k with
  | zero =>
    intro fuel depth buf b a hcur hk ha hvalid hfuel
    obtain ⟨f, rfl⟩ : ∃ f, fuel = f + 1 := ⟨fuel - 1, by omega⟩
    have hdi : depth = index := by omega
    rw [List.getElem?_map] at ha
    obtain ⟨d, hd, hrom⟩ := Option.map_eq_some'.mp ha
    have hs := sim_search_at buf b d (by rw [hcur, hdi]; exact hd)
    have hv : validAddress d.rom = true := by
      obtain ⟨h, rfl⟩ := List.getElem?_eq_some.mp hd
      exact hvalid _ (List.getElem_mem _)
    simp only [getAddressLoop, hs]
    rw [if_pos (by omega), if_pos (by decide)]
    rw [if_pos (by rw [hv, hdi]; simp)]
    rw [hrom, hcur, hdi]
  | succ k ih =>
    intro fuel depth buf b a hcur hk ha hvalid hfuel
    obtain ⟨f, rfl⟩ : ∃ f, fuel = f + 1 := ⟨fuel - 1, by omega⟩
    have hlen : index < b.devices.length := by
      have := (List.getElem?_eq_some.mp ha).1
      simpa using this
    have hdl : depth < b.devices.length := by omega
    have hs := sim_search_at buf b b.devices[depth]
      (by rw [hcur]; exact List.getElem?_eq_getElem hdl)
    simp only [getAddressLoop, hs]
    rw [if_pos (by omega), if_pos (by decide)]
    have hne : ¬ (depth == index && validAddress b.devices[depth].rom) = true := by
      have : depth ≠ index := by omega
      simp [this]
    rw [if_neg hne]
    have hmod : (depth + 1) % 256 = depth + 1 := Nat.mod_eq_of_lt (by omega)
    rw [hmod]
    have := ih f (depth + 1) b.devices[depth].rom { b with cursor := b.cursor + 1 } a
      (by show b.cursor + 1 = depth + 1; rw [hcur]) (by omega) ha hvalid (by omega)
    rw [this]

theorem sim_getAddress_valid (fuel : Nat) (buf : List Nat) (index : Nat) (b : SimBus)
    (a : List Nat) (hidx : index < 255)
    (ha : (b.devices.map (fun d => d.rom))[index]? = some a)
    (hvalid : ∀ d ∈ b.devices, validAddress d.rom = true) (hfuel : index < fuel) :
    getAddress simOw fuel buf index b = some (true, a, { b with cursor := index + 1 }) := by
  unfold getAddress
  exact sim_getAddressLoop_valid index hidx index fuel 0 buf (simOw.reset_search b) a rfl
    (by omega) ha hvalid hfuel

/-- On a simulated bus whose addresses all pass the CRC check the recalculation
loop folds `MAX` over what the devices at positions `i .. i + left - 1` of the
search order report. -/
theorem sim_recalcLoop_valid (fuel : Nat) :
    ∀ (left i : Nat) (buf : List Nat) (r : Nat) (b : SimBus),
      (∀ d ∈ b.devices, validAddress d.rom = true) → i + left ≤ b.devices.length →
      b.devices.length < 256 → b.devices.length < fuel →
      ∃ res, recalcLoop simOw fuel left i buf r b = some res ∧
        res.2.devices = b.devices ∧
        res.1 = (((b.devices.map (fun d => d.rom)).drop i).take left).foldl
          (fun acc a => MAX acc (getResolution simOw a (simBus b.devices)).1) r := by
  intro left
  induction left with
  | zero => intro i buf r b _ _ _ _; exact ⟨_, rfl, rfl, by simp⟩
  | succ n ih =>
    intro i buf r b hvalid hi hlen hfuel
    have hil : i < (b.devices.map (fun d => d.rom)).length := by simp; omega
    have ha := sim_getAddress_valid fuel buf i b _ (by omega)
      (List.getElem?_eq_getElem hil) hvalid (by omega)
    simp only [recalcLoop, ha]
    have hg := sim_getResolution_devices (b.devices.map (fun d => d.rom))[i]
      { b with cursor := i + 1 }
    have hval := sim_getResolution_val (b.devices.map (fun d => d.rom))[i]
      { b with cursor := i + 1 } (simBus b.devices) rfl
    obtain ⟨res, hres, hdres, hr⟩ := ih (i + 1) (b.devices.map (fun d => d.rom))[i]
      (MAX r (getResolution simOw (b.devices.map (fun d => d.rom))[i]
        { b with cursor := i + 1 }).1)
      (getResolution simOw (b.devices.map (fun d => d.rom))[i] { b with cursor := i + 1 }).2
      (by rw [hg.1]; exact hvalid)
      (by rw [hg.1]; show i + 1 + n ≤ b.devices.length; omega)
      (by rw [hg.1]; exact hlen) (by rw [hg.1]; exact hfuel)
    refine ⟨res, hres, by rw [hdres, hg.1], ?_⟩
    rw [hr, hg.1, List.drop_eq_getElem_cons hil, List.take_succ_cons, List.foldl_cons, hval]

theorem sim_beginLoop_bus :
    ∀ (fuel : Nat) (buf : List Nat) (s s' : Dallas SimBus),
      beginLoop simOw fuel buf s = some s' → s'.bus.devices = s.bus.devices := by
  intro fuel
  induction fuel with
  | zero => intro buf s s' h; simp [beginLoop] at h
  | succ f ih =>
    intro buf s s' h
    simp only [beginLoop] at h
    by_cases h1 : ((simOw.search buf s.bus).1 != 0) = true
    · rw [if_pos h1] at h
      by_cases h2 : validAddress (simOw.search buf s.bus).2.1 = true
      · rw [if_pos h2] at h
        have k := ih _ _ _ h
        rw [k]
        show (getResolution simOw _ _).2.devices = _
        rw [(sim_getResolution_devices _ _).1]
        split_ifs
        · rw [sim_readPowerSupply_bus]
          exact sim_search_devices buf s.bus
        · exact sim_search_devices buf s.bus
      · rw [if_neg h2] at h
        have k := ih _ _ _ h
        rw [k]
        exact sim_search_devices buf s.bus
    · rw [if_neg h1] at h
      simp only [Option.some.injEq] at h
      subst h
      exact sim_search_devices buf s.bus

theorem foldl_max_eq_max (l : List Nat) (a : Nat) :
    l.foldl max a = max a (l.foldl max 0) := by
  induction l generalizing a with
  | nil => simp
  | cons x xs ih =>
    simp only [List.foldl_cons, Nat.zero_max]
    rw [ih (max a x), ih x, max_assoc]

theorem le_foldl_max_of_mem (l : List Nat) (x : Nat) (h : x ∈ l) : x ≤ l.foldl max 0 := by
  induction l with
  | nil => simp at h
  | cons y ys ih =>
    simp only [List.foldl_cons, Nat.zero_max]
    rw [foldl_max_eq_max]
    rcases List.mem_cons.mp h with h1 | h1
    · rw [h1]; exact le_max_left _ _
    · exact le_trans (ih h1) (le_max_right _ _)

/-- A fold of `MAX` started at `a` is the plain maximum once some element reaches
`a`. -/
theorem foldl_MAX_eq_maximum (l : List Nat) (a x : Nat) (hx : x ∈ l) (hax : a ≤ x) :
    l.foldl MAX a = l.foldl max 0 := by
  rw [foldl_MAX_eq_foldl_max, foldl_max_eq_max]
  exact max_eq_right (le_trans hax (le_foldl_max_of_mem l x hx))

theorem simFind_of_mem (devices : List SimDevice) (d : SimDevice) (hd : d ∈ devices) :
    ∃ d0, simFind devices d.rom = some d0 ∧ d0 ∈ devices ∧ d0.rom = d.rom := by
  unfold simFind
  cases hf : devices.find? (fun x => x.rom == d.rom) with
  | none =>
    have := List.find?_eq_none.mp hf d hd
    simp at this
  | some d0 =>
    refine ⟨d0, rfl, List.mem_of_find?_eq_some hf, ?_⟩
    have := @List.find?_some _ (fun x : SimDevice => x.rom == d.rom) d0 devices hf
    simpa using this

theorem sim_writeScratchPad_roms (a sp : List Nat) (b : SimBus)
    (hfam : a.getD 0 0 ≠ 0x10) :
    (writeScratchPad simOw a sp b).devices.map (fun d => d.rom)
      = b.devices.map (fun d => d.rom) := by
  rw [sim_writeScratchPad a sp b hfam]
  simp only [simStore_rom]

/-- The session `begin` leaves behind, from any earlier session state, on a
simulated bus whose addresses all pass the CRC check: every device counted, the
devices untouched, the bus-wide resolution the `MAX` fold of what the devices
report, started at the value the session held before. -/
theorem sim_begin_valid_from (s0 : Dallas SimBus) (fuel : Nat)
    (hvalid : ∀ d ∈ s0.bus.devices, validAddress d.rom = true)
    (hlen : s0.bus.devices.length < 256) (hfuel : s0.bus.devices.length < fuel) :
    ∃ s1, begin simOw fuel s0 = some s1 ∧
      s1._devices = s0.bus.devices.length ∧ s1.bus.devices = s0.bus.devices ∧
      s1._bitResolution = ((s0.bus.devices.map (fun d => d.rom)).map
        (fun a => (getResolution simOw a (simBus s0.bus.devices)).1)).foldl MAX
          s0._bitResolution := by
  obtain ⟨s1, hs1, hr1⟩ := sim_beginLoop_resolution s0.bus.devices s0.bus.devices fuel
    uninitAddress { s0 with bus := simOw.reset_search s0.bus, _devices := 0 } rfl rfl hfuel
  obtain ⟨s1', hs1', hd1⟩ := beginLoop_devices simOw_searchContract
    (s0.bus.devices.map (fun d => d.rom)) fuel uninitAddress
    { s0 with bus := simOw.reset_search s0.bus, _devices := 0 }
    (by show simPending (simOw.reset_search s0.bus) = _; simp [simPending, simOw])
    (by simpa using hfuel) (by simp)
  have hsame : s1' = s1 := by
    rw [hs1] at hs1'
    exact (Option.some.inj hs1').symm
  subst hsame
  refine ⟨s1', hs1, ?_, ?_, ?_⟩
  · rw [hd1]
    have hf : (s0.bus.devices.map (fun d => d.rom)).filter validAddress
        = s0.bus.devices.map (fun d => d.rom) := by
      rw [List.filter_eq_self]
      intro a ha
      obtain ⟨d, hd, rfl⟩ := List.mem_map.mp ha
      exact hvalid d hd
    rw [hf]
    simp only [List.length_map, Nat.zero_add]
    exact Nat.mod_eq_of_lt hlen
  · exact sim_beginLoop_bus fuel uninitAddress
      { s0 with bus := simOw.reset_search s0.bus, _devices := 0 } s1' hs1
  · rw [hr1]
    have hf : s0.bus.devices.filter (fun d => validAddress d.rom) = s0.bus.devices := by
      rw [List.filter_eq_self]
      exact hvalid
    rw [hf, List.map_map, List.foldl_map]
    rfl

/-- On a simulated bus whose addresses all pass the CRC check, in a session that
counts every device, a per-device `setResolution` with recalculation whose
clamped request is below the bus-wide resolution returns true. When the device
reported another resolution it is written and the bus-wide resolution becomes the
maximum of what the devices then report; when it reported the clamped request
already, the call leaves the devices and the bus-wide resolution as they were. -/
theorem sim_setResolution_lowering (s1 : Dallas SimBus) (a : List Nat) (d0 : SimDevice)
    (R fuel : Nat) (hfam : a.getD 0 0 ≠ 0x10)
    (hdev : simFind s1.bus.devices a = some d0) (hlen0 : d0.scratch.length = 8)
    (hvalid : ∀ d ∈ s1.bus.devices, validAddress d.rom = true)
    (hn : s1.bus.devices.length < 256) (hfuel : s1.bus.devices.length < fuel)
    (hcount : s1._devices = s1.bus.devices.length)
    (hlow : clampResolution R < s1._bitResolution) :
    ∃ s2, setResolution simOw fuel a R false s1 = some (true, s2) ∧
      clampResolution R ∈ (s1.bus.devices.map (fun d => d.rom)).map
        (fun x => (getResolution simOw x s2.bus).1) ∧
      ((getResolution simOw a s1.bus).1 ≠ clampResolution R →
        s2._bitResolution = ((s1.bus.devices.map (fun d => d.rom)).map
          (fun x => (getResolution simOw x s2.bus).1)).foldl max 0) ∧
      ((getResolution simOw a s1.bus).1 = clampResolution R →
        s2._bitResolution = s1._bitResolution ∧ s2.bus.devices = s1.bus.devices) := by
  obtain ⟨s2, d2, hs2, hfind2, hl2, hc2, _⟩ :=
    sim_setResolution s1 a d0 R fuel false hfam hdev hlen0 hfuel
  have hrep : (getResolution simOw a s2.bus).1 = clampResolution R := by
    rw [sim_getResolution_device a s2.bus d2 hfam hfind2 hl2, hc2]
    exact configResolution_resolutionConfig _ (clampResolution_range R).1
      (clampResolution_range R).2
  have hmem : a ∈ s1.bus.devices.map (fun d => d.rom) := by
    have h1 : d0 ∈ s1.bus.devices := by
      unfold simFind at hdev
      exact List.mem_of_find?_eq_some hdev
    have h2 : d0.rom = a := by
      unfold simFind at hdev
      have := @List.find?_some _ (fun x : SimDevice => x.rom == a) d0 _ hdev
      simpa using this
    exact List.mem_map.mpr ⟨d0, h1, h2⟩
  have hrepmem : clampResolution R ∈ (s1.bus.devices.map (fun d => d.rom)).map
      (fun x => (getResolution simOw x s2.bus).1) :=
    List.mem_map.mpr ⟨a, hmem, hrep⟩
  refine ⟨s2, hs2, hrepmem, ?_⟩
  have hg := sim_getResolution_device a s1.bus d0 hfam hdev hlen0
  have hcon := sim_isConnected_device a uninitScratchPad
    { s1.bus with phase := SimPhase.idle } d0 hdev hlen0
  rw [setResolution_eq, hg] at hs2
  rw [hg]
  by_cases h1 : configResolution (d0.scratch.getD CONFIGURATION 0) = clampResolution R
  · rw [if_pos h1] at hs2
    simp only [Option.some.injEq, Prod.mk.injEq, true_and] at hs2
    subst hs2
    exact ⟨fun h => absurd h1 h, fun _ => ⟨rfl, rfl⟩⟩
  · refine ⟨fun _ => ?_, fun h => absurd h h1⟩
    rw [if_neg h1, hcon] at hs2
    simp only [if_true] at hs2
    rw [if_pos hfam] at hs2
    have h4 : True ∧ clampResolution R < MAX s1._bitResolution (clampResolution R) :=
      ⟨trivial, lt_of_lt_of_le hlow (le_MAX_left _ _)⟩
    rw [if_pos h4, Option.map_eq_some'] at hs2
    obtain ⟨res, hres, heq⟩ := hs2
    simp only [Prod.mk.injEq, true_and] at heq
    subst heq
    have hroms := sim_writeScratchPad_roms a
      ((simScratchPad d0).set CONFIGURATION (resolutionConfig (clampResolution R)))
      { devices := s1.bus.devices, cursor := s1.bus.cursor, phase := SimPhase.idle } hfam
    have hwlen : (writeScratchPad simOw a
        ((simScratchPad d0).set CONFIGURATION (resolutionConfig (clampResolution R)))
        { devices := s1.bus.devices, cursor := s1.bus.cursor,
          phase := SimPhase.idle }).devices.length = s1.bus.devices.length := by
      have := congrArg List.length hroms
      simpa using this
    have hwvalid : ∀ d ∈ (writeScratchPad simOw a
        ((simScratchPad d0).set CONFIGURATION (resolutionConfig (clampResolution R)))
        { devices := s1.bus.devices, cursor := s1.bus.cursor,
          phase := SimPhase.idle }).devices, validAddress d.rom = true := by
      intro d hd
      have hm : d.rom ∈ s1.bus.devices.map (fun d => d.rom) := by
        rw [← hroms]
        exact List.mem_map.mpr ⟨d, hd, rfl⟩
      obtain ⟨d', hd', hr'⟩ := List.mem_map.mp hm
      rw [← hr']
      exact hvalid d' hd'
    obtain ⟨res', hres', hdres', hr'⟩ := sim_recalcLoop_valid fuel s1._devices 0 uninitAddress
      (clampResolution R) _ hwvalid (by rw [hwlen, hcount]; omega) (by rw [hwlen]; exact hn)
      (by rw [hwlen]; exact hfuel)
    rw [hres'] at hres
    have hsame := Option.some.inj hres
    subst hsame
    show res'.1 = ((s1.bus.devices.map (fun d => d.rom)).map
      (fun x => (getResolution simOw x res'.2).1)).foldl max 0
    have hrepmem' : clampResolution R ∈ (s1.bus.devices.map (fun d => d.rom)).map
        (fun x => (getResolution simOw x res'.2).1) := hrepmem
    rw [hr', hroms, List.drop_zero, hcount,
      List.take_of_length_le (by simp), ← List.foldl_map]
    have hval : ∀ x : List Nat, (getResolution simOw x (simBus (writeScratchPad simOw a
        ((simScratchPad d0).set CONFIGURATION (resolutionConfig (clampResolution R)))
        { devices := s1.bus.devices, cursor := s1.bus.cursor,
          phase := SimPhase.idle }).devices)).1 = (getResolution simOw x res'.2).1 :=
      fun x => sim_getResolution_val x _ _ hdres'.symm
    simp only [hval]
    exact foldl_MAX_eq_maximum _ _ (clampResolution R) hrepmem' (le_refl _)

/-- C14, original statement refuted: a fresh session is set bus-wide to 12 bits
before any device is enumerated, then runs `begin` over two devices at 9 and 10
bits, which carries the 12 over. `setResolution(romA, 9, false)`, with 9 below the
bus-wide 12, finds the device at 9 bits already, returns true at once and leaves
the bus-wide resolution at 12, while the devices report 9 and 10, maximum 10.
From the same session a request that does change a device (the 10-bit device to
9) runs the recalculation and gives the maximum, 9. -/
theorem setResolution_early_return_keeps_stale_resolution :
    ((((setGlobalResolution simOw 4 12
          (construct (simBus [simDevice romA TEMP_9_BIT, simDevice romB TEMP_10_BIT]))).bind
        (begin simOw 4)).map (fun s => (s._devices, s._bitResolution)) = some (2, 12)) ∧
    ((((setGlobalResolution simOw 4 12
          (construct (simBus [simDevice romA TEMP_9_BIT, simDevice romB TEMP_10_BIT]))).bind
        (begin simOw 4)).bind (setResolution simOw 4 romA 9 false)).map
      (fun r => (r.1, r.2._bitResolution, (getResolution simOw romA r.2.bus).1,
        (getResolution simOw romB r.2.bus).1)) = some (true, 12, 9, 10)) ∧
    ((((setGlobalResolution simOw 4 12
          (construct (simBus [simDevice romA TEMP_9_BIT, simDevice romB TEMP_10_BIT]))).bind
        (begin simOw 4)).bind (setResolution simOw 4 romB 9 false)).map
      (fun r => (r.1, r.2._bitResolution, (getResolution simOw romA r.2.bus).1,
        (getResolution simOw romB r.2.bus).1)) = some (true, 9, 9, 9))) := by
  refine ⟨by decide!, by decide!, by decide!⟩

/-- C14, amended: on the simulated bus with fewer than 256 devices, all CRC-valid,
connected and configurable, after `begin` from any earlier session state, for
every enumerated device and every requested value whose clamp into 9..12 is below
the bus-wide resolution, `setResolution(addr, r, false)` returns true. When the
device reported a resolution other than the clamped request, it is written and
the bus-wide resolution becomes the maximum of what the enumerated devices report
after the change. When the device reported the clamped request already, the call
leaves the bus-wide resolution as it was: the larger of the value the session held
before `begin` and that maximum. When that earlier value is at most 9, as on a
freshly constructed session, the bus-wide resolution is the maximum in both cases;
for devices at 9, 12 and 10 bits on a fresh session, lowering the 12-bit device to
9 gives 10. -/
theorem setResolution_lowering_recalculates (s0 : Dallas SimBus) (fuel : Nat)
    (hvalid : ∀ d ∈ s0.bus.devices, validAddress d.rom = true)
    (hcfg : ∀ d ∈ s0.bus.devices, d.rom.getD 0 0 ≠ 0x10 ∧ d.scratch.length = 8)
    (hn : s0.bus.devices.length < 256) (hfuel : s0.bus.devices.length < fuel) :
    (∃ s1, begin simOw fuel s0 = some s1 ∧
      ∀ d ∈ s0.bus.devices, ∀ r : Nat,
        (if r < 9 then 9 else if r > 12 then 12 else r) < s1._bitResolution →
        ∃ s2, setResolution simOw fuel d.rom r false s1 = some (true, s2) ∧
          ((getResolution simOw d.rom s1.bus).1
              ≠ (if r < 9 then 9 else if r > 12 then 12 else r) →
            s2._bitResolution = (s0.bus.devices.map
              (fun d' => (getResolution simOw d'.rom s2.bus).1)).foldl max 0) ∧
          ((getResolution simOw d.rom s1.bus).1
              = (if r < 9 then 9 else if r > 12 then 12 else r) →
            s2._bitResolution = s1._bitResolution ∧
            s2._bitResolution = max s0._bitResolution ((s0.bus.devices.map
              (fun d' => (getResolution simOw d'.rom s2.bus).1)).foldl max 0)) ∧
          (s0._bitResolution ≤ 9 →
            s2._bitResolution = (s0.bus.devices.map
              (fun d' => (getResolution simOw d'.rom s2.bus).1)).foldl max 0)) ∧
    ((begin simOw 4 (construct (simBus [simDevice romA TEMP_9_BIT,
        simDevice romB TEMP_12_BIT, simDevice romC TEMP_10_BIT]))).bind
      (setResolution simOw 4 romB 9 false)).map
        (fun r => (r.1, r.2._bitResolution)) = some (true, 10) := by
  refine ⟨?_, by decide!⟩
  obtain ⟨s1, hs1, hcount, hdevs, hbit⟩ := sim_begin_valid_from s0 fuel hvalid hn hfuel
  refine ⟨s1, hs1, ?_⟩
  intro d hd r hlow
  obtain ⟨d0, hfind, hd0, _⟩ := simFind_of_mem s0.bus.devices d hd
  obtain ⟨s2, hs2, hmem, hwrite, hearly⟩ := sim_setResolution_lowering s1 d.rom d0 r fuel
    (hcfg d hd).1 (by rw [hdevs]; exact hfind) (hcfg d0 hd0).2 (by rw [hdevs]; exact hvalid)
    (by rw [hdevs]; exact hn) (by rw [hdevs]; exact hfuel) (by rw [hdevs]; exact hcount)
    hlow
  rw [hdevs, List.map_map] at hmem hwrite
  have hw : (getResolution simOw d.rom s1.bus).1 ≠ clampResolution r →
      s2._bitResolution = (s0.bus.devices.map
        (fun d' => (getResolution simOw d'.rom s2.bus).1)).foldl max 0 := hwrite
  have hm : clampResolution r ∈ s0.bus.devices.map
      (fun d' => (getResolution simOw d'.rom s2.bus).1) := hmem
  have he : (getResolution simOw d.rom s1.bus).1 = clampResolution r →
      s2._bitResolution = s1._bitResolution ∧
      s2._bitResolution = max s0._bitResolution ((s0.bus.devices.map
        (fun d' => (getResolution simOw d'.rom s2.bus).1)).foldl max 0) := by
    intro h
    obtain ⟨hb, hd2⟩ := hearly h
    refine ⟨hb, ?_⟩
    rw [hb, hbit, foldl_MAX_eq_foldl_max, foldl_max_eq_max, List.map_map]
    have hval : ∀ x : List Nat, (getResolution simOw x (simBus s0.bus.devices)).1
        = (getResolution simOw x s2.bus).1 :=
      fun x => sim_getResolution_val x _ _ (by rw [hd2, hdevs]; rfl)
    simp only [Function.comp, hval]
    rfl
  refine ⟨s2, hs2, hw, he, ?_⟩
  intro h9
  by_cases hc : (getResolution simOw d.rom s1.bus).1 = clampResolution r
  · rw [(he hc).2]
    exact max_eq_right (le_trans (le_trans h9 (clampResolution_range r).1)
      (le_foldl_max_of_mem _ _ hm))
  · exact hw hc

/-- Witness for C14 amended: a session set bus-wide to 12 bits before `begin`, over
two simulated DS18B20 at 9 and 10 bits. -/
theorem setResolution_lowering_recalculates_witness :
    ∃ s1, begin simOw 4 { construct (simBus [simDevice romA TEMP_9_BIT,
        simDevice romB TEMP_10_BIT]) with _bitResolution := 12 } = some s1 ∧
      ∀ d ∈ (simBus [simDevice romA TEMP_9_BIT, simDevice romB TEMP_10_BIT]).devices,
        ∀ r : Nat,
        (if r < 9 then 9 else if r > 12 then 12 else r) < s1._bitResolution →
        ∃ s2, setResolution simOw 4 d.rom r false s1 = some (true, s2) ∧
          ((getResolution simOw d.rom s1.bus).1
              ≠ (if r < 9 then 9 else if r > 12 then 12 else r) →
            s2._bitResolution = ((simBus [simDevice romA TEMP_9_BIT,
              simDevice romB TEMP_10_BIT]).devices.map
              (fun d' => (getResolution simOw d'.rom s2.bus).1)).foldl max 0) ∧
          ((getResolution simOw d.rom s1.bus).1
              = (if r < 9 then 9 else if r > 12 then 12 else r) →
            s2._bitResolution = s1._bitResolution ∧
            s2._bitResolution = max 12 (((simBus [simDevice romA TEMP_9_BIT,
              simDevice romB TEMP_10_BIT]).devices.map
              (fun d' => (getResolution simOw d'.rom s2.bus).1)).foldl max 0)) ∧
          ((12 : Nat) ≤ 9 →
            s2._bitResolution = ((simBus [simDevice romA TEMP_9_BIT,
              simDevice romB TEMP_10_BIT]).devices.map
              (fun d' => (getResolution simOw d'.rom s2.bus).1)).foldl max 0) :=
  (setResolution_lowering_recalculates
    { construct (simBus [simDevice romA TEMP_9_BIT, simDevice romB TEMP_10_BIT]) with
      _bitResolution := 12 } 4 (by decide!) (by decide) (by decide) (by decide)).1

/-! ## C21: conversion times -/

/-- C21: `millisToWaitForConversion` returns 94 for 9, 188 for 10, 375 for 11 and
750 for every other input, 12, 0 and 255 among them. -/
theorem millisToWaitForConversion_values :
    millisToWaitForConversion 9 = 94 ∧ millisToWaitForConversion 10 = 188 ∧
      millisToWaitForConversion 11 = 375 ∧ millisToWaitForConversion 12 = 750 ∧
      millisToWaitForConversion 0 = 750 ∧ millisToWaitForConversion 255 = 750 ∧
      ∀ n : Nat, n ≠ 9 → n ≠ 10 → n ≠ 11 → millisToWaitForConversion n = 750 := by
  refine ⟨rfl, rfl, rfl, rfl, rfl, rfl, ?_⟩
  intro n h9 h10 h11
  unfold millisToWaitForConversion
  rw [if_neg (by simpa using h9), if_neg (by simpa using h10), if_neg (by simpa using h11)]

/-- Witness for C21: the input 200. -/
theorem millisToWaitForConversion_values_witness : millisToWaitForConversion 200 = 750 :=
  millisToWaitForConversion_values.2.2.2.2.2.2 200 (by decide) (by decide) (by decide)

/-! ## C22, C23, C28: the temperature decoder -/

/-- C22: on the datasheet power-on scratchpad of a DS18S20 (LSB 0xAA, MSB 0x00,
COUNT_REMAIN 0x0C, COUNT_PER_C 0x10) the datasheet equation gives raw 10880
(85.0 degrees), while `calculateTemperature`, and `getTemp` on a simulated bus
holding that device, yield 10896 (85.125 degrees): the code subtracts 16 raw
units (0.125 degree) where the equation subtracts 0.25 degree, 32 raw units. -/
theorem calculateTemperature_legacy_offset :
    specLegacyRaw (simScratchPad powerOnLegacyDevice) = 10880 ∧
      calculateTemperature romLegacy (simScratchPad powerOnLegacyDevice) = some 10896 ∧
      (getTemp simOw sampleDefines romLegacy (simBus [powerOnLegacyDevice])).map
        (fun t => t.1) = some 10896 := by
  refine ⟨?_, by decide!, by decide!⟩
  norm_num [specLegacyRaw, simScratchPad, powerOnLegacyDevice, toInt16, crc8, List.getD]

theorem toInt16_mod (x : Int) : toInt16 (x % 65536) = toInt16 x := by
  unfold toInt16
  omega

theorem toInt16_cast_mod (X : Nat) :
    toInt16 ((X % 2 ^ 16 : Nat) : Int) = toInt16 (X : Int) := by
  rw [← toInt16_mod (X : Int)]
  congr 1

theorem toInt16_times_eight (u : Nat) (h1 : -4096 ≤ toInt16 (u : Int))
    (h2 : toInt16 (u : Int) < 4096) :
    toInt16 ((8 * u : Nat) : Int) = 8 * toInt16 (u : Int) := by
  unfold toInt16 at h1 h2 ⊢
  omega

theorem temperature_bytes_or (msb lsb : Nat) (hl : lsb < 256) :
    (msb <<< 11) ||| (lsb <<< 3) = 8 * (msb * 256 + lsb) := by
  rw [Nat.shiftLeft_eq, Nat.shiftLeft_eq]
  have h := Nat.mul_add_lt_is_or (i := 11) (b := lsb * 2 ^ 3) (by norm_num; omega) msb
  rw [Nat.mul_comm (2 ^ 11) msb] at h
  rw [← h]
  norm_num
  ring

/-- C23: for an address whose byte 0 is not 0x10 and every scratchpad of bytes,
`calculateTemperature` returns the signed 16-bit reading of
`((MSB << 11) | (LSB << 3)) mod 2^16`, uncorrected; and when the device's 16-bit
two's-complement register `t = MSB:LSB` lies in -4096..4095 the result is exactly
`8 * t`. -/
theorem calculateTemperature_configurable (a sp : List Nat) (hfam : a.getD 0 0 ≠ 0x10)
    (hl : sp.getD 0 0 < 256) :
    calculateTemperature a sp =
        some (toInt16 ((((sp.getD 1 0 <<< 11) ||| (sp.getD 0 0 <<< 3)) % 2 ^ 16 : Nat) : Int)) ∧
      (-4096 ≤ toInt16 ((sp.getD 1 0 * 256 + sp.getD 0 0 : Nat) : Int) →
        toInt16 ((sp.getD 1 0 * 256 + sp.getD 0 0 : Nat) : Int) < 4096 →
        calculateTemperature a sp =
          some (8 * toInt16 ((sp.getD 1 0 * 256 + sp.getD 0 0 : Nat) : Int))) := by
  have hfam' : ¬ (a.getD 0 0 == DS18S20MODEL) = true := by simpa using hfam
  have hcalc : calculateTemperature a sp =
      some (toInt16 (((sp.getD 1 0 <<< 11) ||| (sp.getD 0 0 <<< 3) : Nat) : Int)) := by
    unfold calculateTemperature
    dsimp only
    rw [if_neg hfam']
  constructor
  · rw [hcalc, toInt16_cast_mod]
  · intro h1 h2
    rw [hcalc, temperature_bytes_or _ _ hl, toInt16_times_eight _ h1 h2]

/-- Witness for C23: the register 0xFFEC (-20 sixteenths, -1.25 degrees) of a
DS18B20 decodes to raw -160. -/
theorem calculateTemperature_configurable_witness :
    calculateTemperature romB (simScratchPad coldDevice) = some (-160) :=
  ((calculateTemperature_configurable romB (simScratchPad coldDevice) (by decide)
    (by decide)).2 (by decide) (by decide)).trans (by decide)

/-- C28: the all-zero scratchpad passes the check of `isConnected` (its byte 8
equals `crc8` of bytes 0..7, both 0), and for a DS18S20 address the legacy
correction then divides by COUNT_PER_C = 0: `calculateTemperature` and `getTemp`
have no defined value there. -/
theorem getTemp_undefined_on_zero_scratchpad :
    (crc8 (List.replicate 9 0) 8 == (List.replicate 9 0).getD SCRATCHPAD_CRC 0) = true ∧
      (isConnected simOw romLegacy uninitScratchPad (simBus [zeroLegacyDevice])).1 = true ∧
      (isConnected simOw romLegacy uninitScratchPad (simBus [zeroLegacyDevice])).2.1
        = List.replicate 9 0 ∧
      calculateTemperature romLegacy (List.replicate 9 0) = none ∧
      getTemp simOw sampleDefines romLegacy (simBus [zeroLegacyDevice]) = none := by
  decide!

/-! ## C24, C25: the integer Celsius wrappers -/

/-- C24: a connected DS18B20 reads raw -160 (-1.25 degrees, above the raw sentinel);
100 * raw / 128 is exactly -125. `mgos_dallas_get_tempc`, which rounds with
`round`, returns -125; `mgos_dallas_get_tempc_by_index`, which adds 0.5 and
truncates toward zero, returns -124. On a positive reading (raw 10880, 85
degrees) both return 8500. -/
theorem mgos_get_tempc_by_index_truncates :
    (getTemp simOw sampleDefines romB (simBus [coldDevice])).map (fun t => t.1)
        = some (-160) ∧
      ((100 : ℚ) * (-160) / 128 = -125) ∧
      (mgos_dallas_get_tempc simOw sampleDefines
        (some (construct (simBus [coldDevice]))) romB).map (fun r => r.1) = some (-125) ∧
      (mgos_dallas_get_tempc_by_index simOw sampleDefines 4
        (some (construct (simBus [coldDevice]))) 0).map (fun r => r.1) = some (-124) ∧
      (mgos_dallas_get_tempc simOw sampleDefines
        (some (construct (simBus [simDevice romB TEMP_12_BIT]))) romB).map (fun r => r.1)
        = some 8500 ∧
      (mgos_dallas_get_tempc_by_index simOw sampleDefines 4
        (some (construct (simBus [simDevice romB TEMP_12_BIT]))) 0).map (fun r => r.1)
        = some 8500 := by
  refine ⟨by decide!, by norm_num, by decide!, by decide!, by decide!, by decide!⟩

/-- C25: with the Celsius sentinel at -127, `mgos_dallas_get_tempc` returns -127 for
a null handle, but for a valid handle and a device that is not connected (no
presence on the bus, or a scratchpad whose CRC byte is wrong) it returns the
sentinel scaled by 100, -12700. -/
theorem mgos_get_tempc_scales_sentinel :
    (mgos_dallas_get_tempc simOw sampleDefines (none : Option (Dallas SimBus)) romB).map
        (fun r => r.1) = some (-127) ∧
      (isConnected simOw romB uninitScratchPad (simBus [])).1 = false ∧
      (mgos_dallas_get_tempc simOw sampleDefines (some (construct (simBus []))) romB).map
        (fun r => r.1) = some (-12700) ∧
      (isConnected simOw romB uninitScratchPad (simBus [simDevice romA TEMP_12_BIT])).1
        = false ∧
      (mgos_dallas_get_tempc simOw sampleDefines
        (some (construct (simBus [simDevice romA TEMP_12_BIT]))) romB).map
        (fun r => r.1) = some (-12700) := by
  refine ⟨by decide!, by decide!, by decide!, by decide!, by decide!⟩

/-! ## C26: the power argument of the start-conversion command -/

/-- C26 as stated fails: from a session whose parasite flag is set, the per-device
request to a DS18B20 writes 0x44 with the power argument 1. -/
theorem requestTemperaturesByAddress_holds_power :
    (requestTemperaturesByAddress (recordOw (clockedOw simOw)) (recordPf (simPf 100)) 4 romB
        simSessionParasite).map (fun r => (r.1, r.2.bus.2)) =
      some (true,
        [Event.bus BusOp.reset, Event.bus (BusOp.select romB),
          Event.bus (BusOp.write 0xBE 0), Event.bus (BusOp.read_bytes 9),
          Event.bus BusOp.reset,
          Event.bus BusOp.reset, Event.bus (BusOp.select romB),
          Event.bus (BusOp.write 0x44 1), Event.usleep 188000]) := by
  decide!

theorem requestTemperaturesByAddress_events (ow : OnewireInterface β) (pf : Platform β)
    (fuel : Nat) (a : List Nat) (s : Dallas (β × List Event)) (res : Bool)
    (s' : Dallas (β × List Event))
    (h0 : (getResolution (recordOw ow) a s.bus).1 ≠ 0)
    (h : requestTemperaturesByAddress (recordOw ow) (recordPf pf) fuel a s = some (res, s')) :
    ∃ evs, s'.bus.2 = (getResolution (recordOw ow) a s.bus).2.2 ++
      [Event.bus BusOp.reset, Event.bus (BusOp.select a),
        Event.bus (BusOp.write 0x44 (if s._parasite then 1 else 0))] ++ evs := by
  have h0' : ¬ ((getResolution (recordOw ow) a s.bus).1 == 0) = true := by simpa using h0
  unfold requestTemperaturesByAddress at h
  dsimp only at h
  rw [if_neg h0'] at h
  by_cases hw : (!s._waitForConversion) = true
  · rw [if_pos hw] at h
    simp only [Option.some.injEq, Prod.mk.injEq] at h
    obtain ⟨_, h2⟩ := h
    subst h2
    exact ⟨[], by simp [recordOw]⟩
  · rw [if_neg hw, Option.map_eq_some'] at h
    obtain ⟨s'', hb, heq⟩ := h
    simp only [Prod.mk.injEq] at heq
    obtain ⟨_, h2⟩ := heq
    subst h2
    obtain ⟨evs, hl⟩ := blockTillConversionComplete_events ow pf _ _ _ _ hb
    refine ⟨evs, ?_⟩
    rw [hl]
    simp [recordOw]

theorem requestTemperatures_events (ow : OnewireInterface β) (pf : Platform β)
    (fuel : Nat) (s s' : Dallas (β × List Event))
    (h : requestTemperatures (recordOw ow) (recordPf pf) fuel s = some s') :
    ∃ evs, s'.bus.2 = s.bus.2 ++
      [Event.bus BusOp.reset, Event.bus BusOp.skip,
        Event.bus (BusOp.write 0x44 (if s._parasite then 1 else 0))] ++ evs := by
  unfold requestTemperatures at h
  dsimp only at h
  by_cases hw : (!s._waitForConversion) = true
  · rw [if_pos hw] at h
    simp only [Option.some.injEq] at h
    subst h
    exact ⟨[], by simp [recordOw]⟩
  · rw [if_neg hw] at h
    obtain ⟨evs, hl⟩ := blockTillConversionComplete_events ow pf _ _ _ _ h
    refine ⟨evs, ?_⟩
    rw [hl]
    simp [recordOw]

/-- C26, amended: on every transport and platform and from every session state, a
per-device conversion request to a device whose resolution can be determined
(`getResolution` not 0) writes the start-conversion command 0x44 with the
aggregate parasite flag as power argument (1 when the flag is set, 0 when it is
not), exactly as the broadcast request does; with the wait flag off both requests
return right after that write. -/
theorem start_conversion_power_argument (ow : OnewireInterface β) (pf : Platform β)
    (fuel : Nat) (a : List Nat) (s : Dallas (β × List Event))
    (h0 : (getResolution (recordOw ow) a s.bus).1 ≠ 0) :
    (∀ res s', requestTemperaturesByAddress (recordOw ow) (recordPf pf) fuel a s
        = some (res, s') →
      ∃ evs, s'.bus.2 = (getResolution (recordOw ow) a s.bus).2.2 ++
        [Event.bus BusOp.reset, Event.bus (BusOp.select a),
          Event.bus (BusOp.write 0x44 (if s._parasite then 1 else 0))] ++ evs) ∧
    (∀ s', requestTemperatures (recordOw ow) (recordPf pf) fuel s = some s' →
      ∃ evs, s'.bus.2 = s.bus.2 ++
        [Event.bus BusOp.reset, Event.bus BusOp.skip,
          Event.bus (BusOp.write 0x44 (if s._parasite then 1 else 0))] ++ evs) ∧
    (s._waitForConversion = false →
      (∃ s', requestTemperaturesByAddress (recordOw ow) (recordPf pf) fuel a s
          = some (true, s') ∧
        s'.bus.2 = (getResolution (recordOw ow) a s.bus).2.2 ++
          [Event.bus BusOp.reset, Event.bus (BusOp.select a),
            Event.bus (BusOp.write 0x44 (if s._parasite then 1 else 0))]) ∧
      (∃ s', requestTemperatures (recordOw ow) (recordPf pf) fuel s = some s' ∧
        s'.bus.2 = s.bus.2 ++
          [Event.bus BusOp.reset, Event.bus BusOp.skip,
            Event.bus (BusOp.write 0x44 (if s._parasite then 1 else 0))])) := by
  refine ⟨fun res s' h => requestTemperaturesByAddress_events ow pf fuel a s res s' h0 h,
    fun s' h => requestTemperatures_events ow pf fuel s s' h, ?_⟩
  intro hw
  have h0' : ¬ ((getResolution (recordOw ow) a s.bus).1 == 0) = true := by simpa using h0
  have hw' : (!s._waitForConversion) = true := by simp [hw]
  constructor
  · unfold requestTemperaturesByAddress
    dsimp only
    rw [if_neg h0', if_pos hw']
    exact ⟨_, rfl, by simp [recordOw]⟩
  · unfold requestTemperatures
    dsimp only
    rw [if_pos hw']
    exact ⟨_, rfl, by simp [recordOw]⟩

/-- Witness for C26 amended: the session with the parasite flag set and the wait
flag off, on the simulated world: both requests end their log with the write of
0x44 with power argument 1. -/
theorem start_conversion_power_argument_witness :
    (getResolution (recordOw (clockedOw simOw)) romB simSessionParasiteNoWait.bus).1 ≠ 0 ∧
    simSessionParasiteNoWait._waitForConversion = false ∧
    (∃ s', requestTemperaturesByAddress (recordOw (clockedOw simOw)) (recordPf (simPf 100)) 4
          romB simSessionParasiteNoWait = some (true, s') ∧
        s'.bus.2 =
          (getResolution (recordOw (clockedOw simOw)) romB simSessionParasiteNoWait.bus).2.2 ++
          [Event.bus BusOp.reset, Event.bus (BusOp.select romB),
            Event.bus (BusOp.write 0x44
              (if simSessionParasiteNoWait._parasite then 1 else 0))]) ∧
    (∃ s', requestTemperatures (recordOw (clockedOw simOw)) (recordPf (simPf 100)) 4
          simSessionParasiteNoWait = some s' ∧
        s'.bus.2 = simSessionParasiteNoWait.bus.2 ++
          [Event.bus BusOp.reset, Event.bus BusOp.skip,
            Event.bus (BusOp.write 0x44
              (if simSessionParasiteNoWait._parasite then 1 else 0))]) :=
  ⟨by decide!, rfl,
    (start_conversion_power_argument (clockedOw simOw) (simPf 100) 4 romB
      simSessionParasiteNoWait (by decide!)).2.2 rfl⟩

/-! ## C27: the polling loop and the clock -/

/-- C27: with the clock at 1000 microseconds of uptime when the wait starts, a ready
bit that is never 1 and resolution 12 (wait time 750000 microseconds), the
polling branch of `blockTillConversionComplete` returns after a single poll, 200
microseconds later: `uptime - delms` wraps around in 64-bit unsigned arithmetic
and is not below `now`. Started at 5 seconds of uptime the same loop runs until
750000 microseconds have passed. -/
theorem blockTillConversionComplete_returns_early :
    (blockTillConversionComplete (recordOw (clockedOw busyOw)) (recordPf (simPf 100)) 10 12
        (construct ((((), 1000) : Unit × Nat), ([] : List Event)))).map
      (fun s => (s.bus.2, s.bus.1.2)) =
      some ([Event.uptime, Event.bus BusOp.read_bit, Event.uptime], 1200) ∧
    (1100 + 2 ^ 64 - 1000 * millisToWaitForConversion 12) % 2 ^ 64 = 2 ^ 64 - 748900 ∧
    (blockTillConversionComplete (recordOw (clockedOw busyOw)) (recordPf (simPf 250000)) 10 12
        (construct ((((), 5000000) : Unit × Nat), ([] : List Event)))).map
      (fun s => (s.bus.2, s.bus.1.2)) =
      some ([Event.uptime, Event.bus BusOp.read_bit, Event.uptime,
        Event.bus BusOp.read_bit, Event.uptime, Event.bus BusOp.read_bit, Event.uptime],
        6000000) := by
  refine ⟨by decide!, by decide!, by decide!⟩

end Dallas
